import Mathlib

/-!
Verification of the SPIFlash driver (src/SPIFlash.cpp) against its
natural-language specification.

The driver talks to a serial flash chip through four primitives: driving the
chip-select line low (`select`) and high (`unselect`), and full-duplex one-byte
exchanges (`SPI.transfer`).  We embed each driver operation as a function that
threads an explicit trace of bus events.  The chip's behaviour is modelled by a
response stream `resp : Nat → Nat`: the value `resp k` (reduced mod 256) is the
byte the chip returns on the k-th transfer of the whole trace.

The busy-wait loop `while(busy());` in `SPIFlash::command` has no bound in the
source; we give it explicit fuel and return `none` when the fuel runs out, so
`none` models the (documented) possibility of the driver hanging forever.
Every other loop in the source is bounded by its arguments.

Host-side effects that do not touch the bus (interrupt masking, saving and
restoring the SPCR/SPSR registers, pinMode) are not observable in any claim and
are not recorded in the trace.
-/

namespace SPIFlash

/-- Observable bus event: chip-select low, chip-select high, or a one-byte
full-duplex exchange recording the byte sent by the host (`mosi`) and the byte
returned by the chip (`miso`). -/
inductive BusEvent where
  | sel   : BusEvent
  | unsel : BusEvent
  | xfer  (mosi miso : Nat) : BusEvent
deriving DecidableEq

/-- A bus trace, oldest event first. -/
abbrev Trace := List BusEvent

/-- Response stream of the chip: `resp k` is returned on the k-th transfer. -/
abbrev Resp := Nat → Nat

/-- Number of transfer events in a trace (index of the next transfer into the
response stream). -/
def xferCount (t : Trace) : Nat :=
  (t.filter fun e => match e with | .xfer _ _ => true | _ => false).length

/-- Modelled from the spec: opcode table in section 6 of spec.md.  The header
SPIFlash.h, which defines the SPIFLASH_* opcode constants, is not part of
src/. -/
def SPIFLASH_WRITEENABLE : Nat := 0x06

/-- Modelled from the spec: STATUS-READ opcode (spec.md section 6). -/
def SPIFLASH_STATUSREAD : Nat := 0x05

/-- Modelled from the spec: STATUS-WRITE opcode (spec.md section 6). -/
def SPIFLASH_STATUSWRITE : Nat := 0x01

/-- Modelled from the spec: ARRAY-READ (fast read) opcode (spec.md section 6). -/
def SPIFLASH_ARRAYREAD : Nat := 0x0B

/-- Modelled from the spec: ARRAY-READ-LOW-FREQ opcode (spec.md section 6). -/
def SPIFLASH_ARRAYREADLOWFREQ : Nat := 0x03

/-- Modelled from the spec: BYTE-OR-PAGE-PROGRAM opcode (spec.md section 6). -/
def SPIFLASH_BYTEPAGEPROGRAM : Nat := 0x02

/-- Modelled from the spec: BLOCK-ERASE-4K opcode (spec.md section 6). -/
def SPIFLASH_BLOCKERASE_4K : Nat := 0x20

/-- Modelled from the spec: BLOCK-ERASE-32K opcode (spec.md section 6). -/
def SPIFLASH_BLOCKERASE_32K : Nat := 0x52

/-- Modelled from the spec: CHIP-ERASE opcode (spec.md section 6). -/
def SPIFLASH_CHIPERASE : Nat := 0x60

/-- Modelled from the spec: JEDEC-ID opcode (spec.md section 6). -/
def SPIFLASH_IDREAD : Nat := 0x9F

/-- Modelled from the spec: UNIQUE-ID opcode (spec.md section 6). -/
def SPIFLASH_MACREAD : Nat := 0x4B

/-- Modelled from the spec: DEEP-POWER-DOWN opcode (spec.md section 6). -/
def SPIFLASH_SLEEP : Nat := 0xB9

/-- Modelled from the spec: RELEASE-FROM-POWER-DOWN opcode (spec.md section 6). -/
def SPIFLASH_WAKE : Nat := 0xAB

/-- One `SPI.transfer(b)` call: sends the low byte of `b`, returns the chip's
response byte, and appends the exchange to the trace.  The mod 256 on the
argument is the C++ conversion to `byte`. -/
def spiTransfer (resp : Resp) (b : Nat) (t : Trace) : Nat × Trace :=
  let r := resp (xferCount t) % 256
  (r, t ++ [.xfer (b % 256) r])

/-- `SPIFlash::select` (lines 36-47): interrupt masking and the SPI
configuration snapshot touch no bus line; the observable effect is driving
chip-select low. -/
def select (t : Trace) : Trace := t ++ [.sel]

/-- `SPIFlash::unselect` (lines 50-56): drives chip-select high and restores
the saved SPI configuration (not observable on the bus). -/
def unselect (t : Trace) : Trace := t ++ [.unsel]

/-- `SPIFlash::readStatus` (lines 168-175): framed STATUS-READ returning the
status byte. -/
def readStatus (resp : Resp) (t : Trace) : Nat × Trace :=
  let t1 := select t
  let p1 := spiTransfer resp SPIFLASH_STATUSREAD t1
  let p2 := spiTransfer resp 0 p1.2
  (p2.1, unselect p2.2)

/-- `SPIFlash::busy` (lines 155-165): `readStatus() & 1` as a boolean. -/
def busy (resp : Resp) (t : Trace) : Bool × Trace :=
  let p := readStatus resp t
  (p.1 % 2 = 1, p.2)

/-- The `while(busy());` loop at line 149, with explicit fuel: polls the status
register until bit 0 is clear, `none` when the fuel runs out (the source loop
would spin forever if the chip never reports ready). -/
def waitReady (resp : Resp) : Nat → Trace → Option Trace
  | 0, _ => none
  | fuel + 1, t =>
    let p := busy resp t
    if p.1 then waitReady resp fuel p.2 else some p.2

/-- `SPIFlash::command` (lines 134-152) with `isWrite = false`: wait for the
chip to become ready, select it, transmit the opcode, and leave the frame open
for the caller. -/
def commandRaw (resp : Resp) (fuel cmd : Nat) (t : Trace) : Option Trace :=
  match waitReady resp fuel t with
  | none => none
  | some t1 => some (spiTransfer resp cmd (select t1)).2

/-- `SPIFlash::command` (lines 134-152).  The source recurses once into itself
with `isWrite = false` to issue WRITE-ENABLE; that single level of recursion is
unfolded here through `commandRaw`, which is exactly the `isWrite = false`
body. -/
def command (resp : Resp) (fuel cmd : Nat) (isWrite : Bool) (t : Trace) : Option Trace :=
  match (if isWrite then (commandRaw resp fuel SPIFLASH_WRITEENABLE t).map unselect
         else some t) with
  | none => none
  | some t1 => commandRaw resp fuel cmd t1

/-- `SPIFlash::readDeviceId` (lines 77-89).  `leonardo` selects the
`__AVR_ATmega32U4__` compile path, which issues the opcode via `command`;
the other path selects the chip and transmits the opcode directly. -/
def readDeviceId (resp : Resp) (fuel : Nat) (leonardo : Bool) (t : Trace) :
    Option (Nat × Trace) :=
  match (if leonardo then command resp fuel SPIFLASH_IDREAD false t
         else some (spiTransfer resp SPIFLASH_IDREAD (select t)).2) with
  | none => none
  | some t1 =>
    let p1 := spiTransfer resp 0 t1
    let p2 := spiTransfer resp 0 p1.2
    some (((p1.1 <<< 8) ||| p2.1) % 65536, unselect p2.2)

/-- Receive loop `for (...) buf[i] = SPI.transfer(0);`: reads `n` bytes,
returning them in order. -/
def recvLoop (resp : Resp) : Nat → Trace → List Nat × Trace
  | 0, t => ([], t)
  | n + 1, t =>
    let p := spiTransfer resp 0 t
    let q := recvLoop resp n p.2
    (p.1 :: q.1, q.2)

/-- `SPIFlash::readUniqueId` (lines 97-108): UNIQUE-ID opcode, four dummy
bytes, then eight bytes into the id buffer. -/
def readUniqueId (resp : Resp) (fuel : Nat) (t : Trace) : Option (List Nat × Trace) :=
  match command resp fuel SPIFLASH_MACREAD false t with
  | none => none
  | some t1 =>
    let t2 := (spiTransfer resp 0 t1).2
    let t3 := (spiTransfer resp 0 t2).2
    let t4 := (spiTransfer resp 0 t3).2
    let t5 := (spiTransfer resp 0 t4).2
    let q := recvLoop resp 8 t5
    some (q.1, unselect q.2)

/-- C++ conversion of a (signed) `long` expression to `byte`: reduction modulo
256 (the Euclidean remainder, matching two's-complement truncation). -/
def toByte (x : Int) : Nat := (x % 256).toNat

/-- Arithmetic right shift of a `long`, as produced by avr-gcc for `addr >> k`
on a signed operand: floor division by 2 ^ k. -/
def asr (x : Int) (k : Nat) : Int := Int.fdiv x (2 ^ k)

/-- The address transmission shared verbatim by every address-taking command:
`SPI.transfer(addr >> 16); SPI.transfer(addr >> 8); SPI.transfer(addr);`. -/
def sendAddr (resp : Resp) (addr : Int) (t : Trace) : Trace :=
  let t1 := (spiTransfer resp (toByte (asr addr 16)) t).2
  let t2 := (spiTransfer resp (toByte (asr addr 8)) t1).2
  (spiTransfer resp (toByte addr) t2).2

/-- `SPIFlash::readByte` (lines 111-119). -/
def readByte (resp : Resp) (fuel : Nat) (addr : Int) (t : Trace) :
    Option (Nat × Trace) :=
  match command resp fuel SPIFLASH_ARRAYREADLOWFREQ false t with
  | none => none
  | some t1 =>
    let p := spiTransfer resp 0 (sendAddr resp addr t1)
    some (p.1, unselect p.2)

/-- `SPIFlash::readBytes` (lines 122-131): ARRAY-READ opcode, address, one
dummy byte, then `len` reads. -/
def readBytes (resp : Resp) (fuel : Nat) (addr : Int) (len : Nat) (t : Trace) :
    Option (List Nat × Trace) :=
  match command resp fuel SPIFLASH_ARRAYREAD false t with
  | none => none
  | some t1 =>
    let t2 := (spiTransfer resp 0 (sendAddr resp addr t1)).2
    let q := recvLoop resp len t2
    some (q.1, unselect q.2)

/-- `SPIFlash::writeByte` (lines 181-188). -/
def writeByte (resp : Resp) (fuel : Nat) (addr : Int) (byt : Nat) (t : Trace) :
    Option Trace :=
  match command resp fuel SPIFLASH_BYTEPAGEPROGRAM true t with
  | none => none
  | some t1 => some (unselect (spiTransfer resp byt (sendAddr resp addr t1)).2)

/-- Transmission loop `for (i = 0; i < n; i++) SPI.transfer(buf[offset+i]);`
folded over the list of bytes to send. -/
def xferSeq (resp : Resp) : List Nat → Trace → Trace
  | [], t => t
  | b :: bs, t => xferSeq resp bs (spiTransfer resp b t).2

/-- Initial value of `maxBytes` in `SPIFlash::writeBytes` (line 197):
`uint16_t maxBytes = 256-(addr%256);` where `%` is the C++ truncated remainder
on `long` and the result (always in 1..511) is converted to `uint16_t`. -/
def firstLimit (addr : Int) : Nat := (256 - Int.tmod addr 256).toNat

/-- Loop body of `SPIFlash::writeBytes` (lines 199-215).  The structural fuel
`k` is an upper bound on the number of iterations; the wrapper passes
`k = len`, which suffices because each iteration consumes at least one byte
whenever `maxBytes > 0`.  Exhausted fuel (only reachable in states the source
cannot reach from its entry) is reported as `none`, like a hung busy-wait. -/
def writeBytesLoop (resp : Resp) (fuel : Nat) (buf : Nat → Nat) :
    Nat → Int → Nat → Nat → Nat → Trace → Option Trace
  | 0, _, _, len, _, t => if len = 0 then some t else none
  | k + 1, addr, offset, len, maxBytes, t =>
    if len = 0 then some t
    else
      let n := if len ≤ maxBytes then len else maxBytes
      match command resp fuel SPIFLASH_BYTEPAGEPROGRAM true t with
      | none => none
      | some t1 =>
        let t2 := xferSeq resp ((List.range n).map fun i => buf (offset + i))
                    (sendAddr resp addr t1)
        writeBytesLoop resp fuel buf k (addr + n) (offset + n) (len - n) 256
          (unselect t2)

/-- `SPIFlash::writeBytes` (lines 195-216).  `buf i` is byte `i` of the source
buffer; `len` is the `uint16_t` length argument. -/
def writeBytes (resp : Resp) (fuel : Nat) (addr : Int) (buf : Nat → Nat)
    (len : Nat) (t : Trace) : Option Trace :=
  writeBytesLoop resp fuel buf len addr 0 len (firstLimit addr) t

/-- `SPIFlash::chipErase` (lines 224-227). -/
def chipErase (resp : Resp) (fuel : Nat) (t : Trace) : Option Trace :=
  match command resp fuel SPIFLASH_CHIPERASE true t with
  | none => none
  | some t1 => some (unselect t1)

/-- `SPIFlash::blockErase4K` (lines 230-236). -/
def blockErase4K (resp : Resp) (fuel : Nat) (addr : Int) (t : Trace) : Option Trace :=
  match command resp fuel SPIFLASH_BLOCKERASE_4K true t with
  | none => none
  | some t1 => some (unselect (sendAddr resp addr t1))

/-- `SPIFlash::blockErase32K` (lines 239-245). -/
def blockErase32K (resp : Resp) (fuel : Nat) (addr : Int) (t : Trace) : Option Trace :=
  match command resp fuel SPIFLASH_BLOCKERASE_32K true t with
  | none => none
  | some t1 => some (unselect (sendAddr resp addr t1))

/-- `SPIFlash::sleep` (lines 247-250). -/
def sleep (resp : Resp) (fuel : Nat) (t : Trace) : Option Trace :=
  match command resp fuel SPIFLASH_SLEEP false t with
  | none => none
  | some t1 => some (unselect t1)

/-- `SPIFlash::wakeup` (lines 252-255). -/
def wakeup (resp : Resp) (fuel : Nat) (t : Trace) : Option Trace :=
  match command resp fuel SPIFLASH_WAKE false t with
  | none => none
  | some t1 => some (unselect t1)

/-- `SPIFlash::initialize` (lines 59-74).  The SPCR/SPSR snapshot and pinMode
are not bus events; the observable actions are the defensive `unselect()`, the
`wakeup()`, the optional identifier probe (skipped when `jedecID = 0`, as C++
`||` short-circuits), and on success the STATUS-WRITE command with a zero
payload.  Returns the `boolean` result paired with the trace.  (The source
method's name is a Lean keyword, hence the name `initFlash`.) -/
def initFlash (resp : Resp) (fuel : Nat) (jedecID : Nat) (leonardo : Bool)
    (t : Trace) : Option (Bool × Trace) :=
  match wakeup resp fuel (unselect t) with
  | none => none
  | some t1 =>
    if jedecID = 0 then
      match command resp fuel SPIFLASH_STATUSWRITE true t1 with
      | none => none
      | some t2 => some (true, unselect (spiTransfer resp 0 t2).2)
    else
      match readDeviceId resp fuel leonardo t1 with
      | none => none
      | some (id, t2) =>
        if id = jedecID then
          match command resp fuel SPIFLASH_STATUSWRITE true t2 with
          | none => none
          | some t3 => some (true, unselect (spiTransfer resp 0 t3).2)
        else some (false, t2)

/-!  Specification-side vocabulary: burst descriptors for the page-split law,
poll-run and framing predicates over traces.  These are compared against the
operational definitions above. -/

/-- Burst descriptors of the `writeBytes` loop: the same arithmetic as
`writeBytesLoop` (lines 199-215), collecting for every iteration the start
address and the bytes transmitted instead of the bus events. -/
def writeBurstsLoop (buf : Nat → Nat) : Nat → Int → Nat → Nat → Nat → List (Int × List Nat)
  | 0, _, _, _, _ => []
  | k + 1, addr, offset, len, maxBytes =>
    if len = 0 then []
    else
      let n := if len ≤ maxBytes then len else maxBytes
      (addr, (List.range n).map fun i => buf (offset + i)) ::
        writeBurstsLoop buf k (addr + n) (offset + n) (len - n) 256

/-- The sequence of program bursts `writeBytes(addr, buf, len)` performs. -/
def writeBursts (addr : Int) (buf : Nat → Nat) (len : Nat) : List (Int × List Nat) :=
  writeBurstsLoop buf len addr 0 len (firstLimit addr)

/-- Executor that replays a list of burst descriptors on the bus: for each
burst a mutating BYTE-OR-PAGE-PROGRAM command, the burst's address, its data,
then unselect.  `writeBytes` is proved equal to `runBursts` over
`writeBursts`. -/
def runBursts (resp : Resp) (fuel : Nat) : List (Int × List Nat) → Trace → Option Trace
  | [], t => some t
  | (s, d) :: bs, t =>
    match command resp fuel SPIFLASH_BYTEPAGEPROGRAM true t with
    | none => none
    | some t1 => runBursts resp fuel bs (unselect (xferSeq resp d (sendAddr resp s t1)))

/-- The bursts tile the interval from `a` of length `len`: each starts where
the previous one ended, each is nonempty, and the lengths sum to `len`. -/
def partitionFrom : Int → Nat → List (Int × List Nat) → Prop
  | _, len, [] => len = 0
  | a, len, (s, d) :: bs =>
    s = a ∧ 0 < d.length ∧ d.length ≤ len ∧
      partitionFrom (a + d.length) (len - d.length) bs

/-- A burst starting at `s` covering `n` bytes crosses a multiple of 256:
some multiple of 256 lies strictly inside the covered interval. -/
def crossesPage (s : Int) (n : Nat) : Prop :=
  ∃ m : Int, s < 256 * m ∧ 256 * m < s + n

/-- Concatenation of the data of a burst sequence. -/
def flatData : List (Int × List Nat) → List Nat
  | [] => []
  | b :: bs => b.2 ++ flatData bs

/-- The four bus events of one STATUS-READ transaction: `p.1` is the byte the
chip returns while the opcode is shifted out, `p.2` the status byte. -/
def pollTrace (p : Nat × Nat) : Trace :=
  [.sel, .xfer 5 p.1, .xfer 0 p.2, .unsel]

/-- Concatenated STATUS-READ transactions. -/
def pollsTrace : List (Nat × Nat) → Trace
  | [] => []
  | p :: ps => pollTrace p ++ pollsTrace ps

/-- A busy-wait run: at least one poll, every poll before the last returned
busy (bit 0 set), and the last poll returned ready (bit 0 clear). -/
def readyRun : List (Nat × Nat) → Prop
  | [] => False
  | [p] => p.2 % 2 = 0
  | p :: q :: ps => p.2 % 2 = 1 ∧ readyRun (q :: ps)

/-- Receive section of a trace: one transfer sending 0 per received byte. -/
def recvTrace (out : List Nat) : Trace := out.map fun b => .xfer 0 b

/-- Number of select events in a trace. -/
def selCount (t : Trace) : Nat :=
  (t.filter fun e => match e with | .sel => true | _ => false).length

/-- Number of unselect events in a trace. -/
def unselCount (t : Trace) : Nat :=
  (t.filter fun e => match e with | .unsel => true | _ => false).length

/-- Transfers that shift out the STATUS-READ opcode. -/
def isStatusRead (e : BusEvent) : Bool :=
  match e with | .xfer 5 _ => true | _ => false

/-!  Shape lemmas: every completing run of the command-issuance path leaves a
trace of a fixed shape. -/

lemma readyRun_cons {p : Nat × Nat} {ps : List (Nat × Nat)} (h1 : p.2 % 2 = 1)
    (h2 : readyRun ps) : readyRun (p :: ps) := by
  cases ps with
  | nil => exact absurd h2 (by simp [readyRun])
  | cons q ps => exact ⟨h1, h2⟩

lemma readStatus_eq (resp : Resp) (t : Trace) :
    readStatus resp t = (resp (xferCount t + 1) % 256,
      t ++ pollTrace (resp (xferCount t) % 256, resp (xferCount t + 1) % 256)) := by
  simp [readStatus, spiTransfer, select, unselect, pollTrace, xferCount,
    SPIFLASH_STATUSREAD, List.filter_append, List.append_assoc]

lemma busy_eq (resp : Resp) (t : Trace) :
    busy resp t = (decide (resp (xferCount t + 1) % 256 % 2 = 1),
      t ++ pollTrace (resp (xferCount t) % 256, resp (xferCount t + 1) % 256)) := by
  rw [busy, readStatus_eq]

lemma waitReady_shape (resp : Resp) :
    ∀ (fuel : Nat) (t t' : Trace), waitReady resp fuel t = some t' →
      ∃ ps, readyRun ps ∧ t' = t ++ pollsTrace ps := by
  intro fuel
  induction fuel with
  | zero => intro t t' h; exact absurd h (by simp [waitReady])
  | succ n ih =>
    intro t t' h
    simp only [waitReady, busy_eq] at h
    by_cases hs : resp (xferCount t + 1) % 256 % 2 = 1
    · rw [if_pos (by simpa using hs)] at h
      obtain ⟨ps, hps, ht⟩ := ih _ _ h
      refine ⟨(resp (xferCount t) % 256, resp (xferCount t + 1) % 256) :: ps,
        readyRun_cons hs hps, ?_⟩
      simp [ht, pollsTrace, List.append_assoc]
    · rw [if_neg (by simpa using hs)] at h
      cases h
      refine ⟨[(resp (xferCount t) % 256, resp (xferCount t + 1) % 256)], ?_, ?_⟩
      · show _ % 2 = 0
        omega
      · simp [pollsTrace]

lemma commandRaw_shape {resp : Resp} {fuel cmd : Nat} {t t' : Trace}
    (h : commandRaw resp fuel cmd t = some t') :
    ∃ ps r, readyRun ps ∧
      t' = t ++ pollsTrace ps ++ [.sel, .xfer (cmd % 256) r] := by
  unfold commandRaw at h
  cases hw : waitReady resp fuel t with
  | none => rw [hw] at h; cases h
  | some t1 =>
    rw [hw] at h
    obtain ⟨ps, hps, ht⟩ := waitReady_shape resp fuel t t1 hw
    cases h
    refine ⟨ps, (spiTransfer resp cmd (select t1)).1, hps, ?_⟩
    simp [spiTransfer, select, ht, List.append_assoc]

lemma command_false_shape {resp : Resp} {fuel cmd : Nat} {t t' : Trace}
    (h : command resp fuel cmd false t = some t') :
    ∃ ps r, readyRun ps ∧
      t' = t ++ pollsTrace ps ++ [.sel, .xfer (cmd % 256) r] := by
  simp only [command, Bool.false_eq_true, if_false] at h
  exact commandRaw_shape h

lemma command_true_shape {resp : Resp} {fuel cmd : Nat} {t t' : Trace}
    (h : command resp fuel cmd true t = some t') :
    ∃ ps₀ r₀ ps₁ r₁, readyRun ps₀ ∧ readyRun ps₁ ∧
      t' = t ++ pollsTrace ps₀ ++ [.sel, .xfer 6 r₀, .unsel]
             ++ pollsTrace ps₁ ++ [.sel, .xfer (cmd % 256) r₁] := by
  unfold command at h
  rw [if_pos rfl] at h
  cases hw : commandRaw resp fuel SPIFLASH_WRITEENABLE t with
  | none => rw [hw] at h; cases h
  | some t1 =>
    rw [hw] at h
    simp only [Option.map_some'] at h
    obtain ⟨ps₀, r₀, hps₀, ht₀⟩ := commandRaw_shape hw
    obtain ⟨ps₁, r₁, hps₁, ht₁⟩ := commandRaw_shape h
    refine ⟨ps₀, r₀, ps₁, r₁, hps₀, hps₁, ?_⟩
    simp [ht₁, unselect, ht₀, SPIFLASH_WRITEENABLE, List.append_assoc]

lemma toByte_lt (x : Int) : toByte x < 256 := by
  have h1 : 0 ≤ x % 256 := Int.emod_nonneg x (by norm_num)
  have h2 : x % 256 < 256 := Int.emod_lt_of_pos x (by norm_num)
  unfold toByte
  omega

lemma toByte_mod (x : Int) : toByte x % 256 = toByte x :=
  Nat.mod_eq_of_lt (toByte_lt x)

lemma sendAddr_shape (resp : Resp) (addr : Int) (t : Trace) : ∃ r1 r2 r3,
    sendAddr resp addr t = t ++ [.xfer (toByte (asr addr 16)) r1,
      .xfer (toByte (asr addr 8)) r2, .xfer (toByte addr) r3] := by
  refine ⟨resp (xferCount t) % 256, resp (xferCount t + 1) % 256,
    resp (xferCount t + 2) % 256, ?_⟩
  simp [sendAddr, spiTransfer, xferCount, List.filter_append, toByte_mod,
    List.append_assoc]

lemma recvLoop_shape (resp : Resp) : ∀ (n : Nat) (t : Trace),
    (recvLoop resp n t).2 = t ++ recvTrace (recvLoop resp n t).1
    ∧ (recvLoop resp n t).1.length = n := by
  intro n
  induction n with
  | zero => intro t; simp [recvLoop, recvTrace]
  | succ n ih =>
    intro t
    obtain ⟨h1, h2⟩ := ih (spiTransfer resp 0 t).2
    refine ⟨?_, by simp [recvLoop, h2]⟩
    simp only [recvLoop]
    rw [h1]
    simp [spiTransfer, recvTrace, List.append_assoc]

lemma xferSeq_shape (resp : Resp) : ∀ (bs : List Nat) (t : Trace),
    ∃ u, xferSeq resp bs t = t ++ u ∧
      ∀ e ∈ u, ∃ a b, e = BusEvent.xfer a b := by
  intro bs
  induction bs with
  | nil => intro t; exact ⟨[], by simp [xferSeq], by simp⟩
  | cons b bs ih =>
    intro t
    obtain ⟨u, hu, hx⟩ := ih (spiTransfer resp b t).2
    refine ⟨BusEvent.xfer (b % 256) (resp (xferCount t) % 256) :: u, ?_, ?_⟩
    · rw [xferSeq, hu]
      simp [spiTransfer, List.append_assoc]
    · intro e he
      rcases List.mem_cons.mp he with rfl | he
      · exact ⟨_, _, rfl⟩
      · exact hx e he

/-!  Counting select and unselect events. -/

lemma selCount_append (a b : Trace) :
    selCount (a ++ b) = selCount a + selCount b := by
  simp [selCount, List.filter_append]

lemma unselCount_append (a b : Trace) :
    unselCount (a ++ b) = unselCount a + unselCount b := by
  simp [unselCount, List.filter_append]

lemma selCount_pollsTrace : ∀ ps : List (Nat × Nat),
    selCount (pollsTrace ps) = ps.length := by
  intro ps
  induction ps with
  | nil => rfl
  | cons p ps ih =>
    have h : selCount (pollTrace p) = 1 := rfl
    rw [pollsTrace, selCount_append, ih, h]
    simp only [List.length_cons]
    omega

lemma unselCount_pollsTrace : ∀ ps : List (Nat × Nat),
    unselCount (pollsTrace ps) = ps.length := by
  intro ps
  induction ps with
  | nil => rfl
  | cons p ps ih =>
    have h : unselCount (pollTrace p) = 1 := rfl
    rw [pollsTrace, unselCount_append, ih, h]
    simp only [List.length_cons]
    omega

lemma counts_of_xfers (u : Trace)
    (hx : ∀ e ∈ u, ∃ a b, e = BusEvent.xfer a b) :
    selCount u = 0 ∧ unselCount u = 0 := by
  induction u with
  | nil => exact ⟨rfl, rfl⟩
  | cons e es ih =>
    obtain ⟨a, b, rfl⟩ := hx _ (List.mem_cons_self _ _)
    obtain ⟨h1, h2⟩ := ih (fun e he => hx e (List.mem_cons_of_mem _ he))
    exact ⟨by simpa [selCount] using h1, by simpa [unselCount] using h2⟩

lemma recvTrace_all_xfer (out : List Nat) :
    ∀ e ∈ recvTrace out, ∃ a b, e = BusEvent.xfer a b := by
  intro e he
  simp only [recvTrace, List.mem_map] at he
  obtain ⟨b, _, rfl⟩ := he
  exact ⟨_, _, rfl⟩

lemma selCount_recvTrace (out : List Nat) : selCount (recvTrace out) = 0 :=
  (counts_of_xfers _ (recvTrace_all_xfer out)).1

lemma unselCount_recvTrace (out : List Nat) : unselCount (recvTrace out) = 0 :=
  (counts_of_xfers _ (recvTrace_all_xfer out)).2

lemma selCount_xferSeq (resp : Resp) (bs : List Nat) (t : Trace) :
    selCount (xferSeq resp bs t) = selCount t := by
  obtain ⟨u, hu, hx⟩ := xferSeq_shape resp bs t
  rw [hu, selCount_append, (counts_of_xfers u hx).1]
  omega

lemma unselCount_xferSeq (resp : Resp) (bs : List Nat) (t : Trace) :
    unselCount (xferSeq resp bs t) = unselCount t := by
  obtain ⟨u, hu, hx⟩ := xferSeq_shape resp bs t
  rw [hu, unselCount_append, (counts_of_xfers u hx).2]
  omega

/-- The suffix appended between `t` and `t'` holds as many selects as
unselects. -/
def balancedFrom (t t' : Trace) : Prop :=
  ∃ k, selCount t' = selCount t + k ∧ unselCount t' = unselCount t + k

lemma balancedFrom_trans {a b c : Trace} (h1 : balancedFrom a b)
    (h2 : balancedFrom b c) : balancedFrom a c := by
  obtain ⟨k1, hs1, hu1⟩ := h1
  obtain ⟨k2, hs2, hu2⟩ := h2
  exact ⟨k1 + k2, by omega, by omega⟩

lemma counts_sendAddr (resp : Resp) (addr : Int) (t : Trace) :
    selCount (sendAddr resp addr t) = selCount t
    ∧ unselCount (sendAddr resp addr t) = unselCount t := by
  obtain ⟨r1, r2, r3, h⟩ := sendAddr_shape resp addr t
  rw [h, selCount_append, unselCount_append]
  exact ⟨by simp [selCount], by simp [unselCount]⟩

lemma counts_commandRaw {resp : Resp} {fuel cmd : Nat} {t t' : Trace}
    (h : commandRaw resp fuel cmd t = some t') :
    ∃ k, selCount t' = selCount t + k + 1 ∧ unselCount t' = unselCount t + k := by
  obtain ⟨ps, r, _, ht⟩ := commandRaw_shape h
  refine ⟨ps.length, ?_, ?_⟩
  · have hl : selCount [BusEvent.sel, BusEvent.xfer (cmd % 256) r] = 1 := rfl
    rw [ht, selCount_append, selCount_append, selCount_pollsTrace, hl]
  · have hl : unselCount [BusEvent.sel, BusEvent.xfer (cmd % 256) r] = 0 := rfl
    rw [ht, unselCount_append, unselCount_append, unselCount_pollsTrace, hl]
    omega

lemma counts_command {resp : Resp} {fuel cmd : Nat} {iw : Bool} {t t' : Trace}
    (h : command resp fuel cmd iw t = some t') :
    ∃ k, selCount t' = selCount t + k + 1 ∧ unselCount t' = unselCount t + k := by
  cases iw with
  | false =>
    simp only [command, Bool.false_eq_true, if_false] at h
    exact counts_commandRaw h
  | true =>
    unfold command at h
    rw [if_pos rfl] at h
    cases hw : commandRaw resp fuel SPIFLASH_WRITEENABLE t with
    | none => rw [hw] at h; cases h
    | some t1 =>
      rw [hw] at h
      simp only [Option.map_some'] at h
      obtain ⟨k1, hs1, hu1⟩ := counts_commandRaw hw
      obtain ⟨k2, hs2, hu2⟩ := counts_commandRaw h
      have hsu : selCount (unselect t1) = selCount t1 ∧
          unselCount (unselect t1) = unselCount t1 + 1 := by
        rw [unselect, selCount_append, unselCount_append]
        exact ⟨rfl, rfl⟩
      exact ⟨k1 + k2 + 1, by omega, by omega⟩

lemma counts_unselect (t : Trace) :
    selCount (unselect t) = selCount t
    ∧ unselCount (unselect t) = unselCount t + 1 := by
  rw [unselect, selCount_append, unselCount_append]
  exact ⟨rfl, rfl⟩

/-- A completing `command` followed by transfer-only events and one final
`unselect` appends a balanced suffix; this is the common shape of every
driver operation built on `command`. -/
lemma balanced_command_unselect {resp : Resp} {fuel cmd : Nat} {iw : Bool}
    {t t1 : Trace} (h : command resp fuel cmd iw t = some t1) (u : Trace)
    (hx : ∀ e ∈ u, ∃ a b, e = BusEvent.xfer a b) :
    balancedFrom t (unselect (t1 ++ u)) := by
  obtain ⟨k, hs, hu⟩ := counts_command h
  obtain ⟨hs2, hu2⟩ := counts_of_xfers u hx
  refine ⟨k + 1, ?_, ?_⟩
  · rw [unselect, selCount_append, selCount_append]
    simp only [hs, hs2]
    have : selCount [BusEvent.unsel] = 0 := rfl
    omega
  · rw [unselect, unselCount_append, unselCount_append]
    simp only [hu, hu2]
    have : unselCount [BusEvent.unsel] = 1 := rfl
    omega

lemma counts_readStatus (resp : Resp) (t : Trace) :
    balancedFrom t (readStatus resp t).2 := by
  rw [readStatus_eq]
  refine ⟨1, ?_, ?_⟩
  · rw [selCount_append]; rfl
  · rw [unselCount_append]; rfl

lemma readDeviceId_false_shape {resp : Resp} {fuel : Nat} {t : Trace}
    {id : Nat} {t' : Trace} (h : readDeviceId resp fuel false t = some (id, t')) :
    ∃ r0 m d, m < 256 ∧ d < 256 ∧
      t' = t ++ [.sel, .xfer 159 r0, .xfer 0 m, .xfer 0 d, .unsel] ∧
      id = ((m <<< 8) ||| d) % 65536 := by
  simp only [readDeviceId, Bool.false_eq_true, if_false, Option.some.injEq,
    Prod.mk.injEq] at h
  obtain ⟨hid, ht⟩ := h
  subst ht
  refine ⟨(spiTransfer resp SPIFLASH_IDREAD (select t)).1,
    (spiTransfer resp 0 (spiTransfer resp SPIFLASH_IDREAD (select t)).2).1,
    (spiTransfer resp 0 (spiTransfer resp 0
      (spiTransfer resp SPIFLASH_IDREAD (select t)).2).2).1,
    Nat.mod_lt _ (by norm_num), Nat.mod_lt _ (by norm_num), ?_, ?_⟩
  · simp [spiTransfer, select, unselect, SPIFLASH_IDREAD, List.append_assoc]
  · exact hid.symm

lemma counts_readDeviceId {resp : Resp} {fuel : Nat} {leo : Bool} {t : Trace}
    {id : Nat} {t' : Trace} (h : readDeviceId resp fuel leo t = some (id, t')) :
    balancedFrom t t' := by
  cases leo with
  | false =>
    obtain ⟨r0, m, d, _, _, ht, _⟩ := readDeviceId_false_shape h
    refine ⟨1, ?_, ?_⟩
    · rw [ht, selCount_append]; rfl
    · rw [ht, unselCount_append]; rfl
  | true =>
    unfold readDeviceId at h
    rw [if_pos rfl] at h
    cases hw : command resp fuel SPIFLASH_IDREAD false t with
    | none => rw [hw] at h; cases h
    | some t1 =>
      rw [hw] at h
      simp only [Option.some.injEq, Prod.mk.injEq] at h
      obtain ⟨-, ht⟩ := h
      have hu : unselect (spiTransfer resp 0 (spiTransfer resp 0 t1).2).2
          = unselect (t1 ++ [BusEvent.xfer 0 (spiTransfer resp 0 t1).1,
              BusEvent.xfer 0 (spiTransfer resp 0 (spiTransfer resp 0 t1).2).1]) := by
        simp [spiTransfer, List.append_assoc]
      rw [← ht, hu]
      refine balanced_command_unselect hw _ ?_
      intro e he
      rcases List.mem_cons.mp he with rfl | he
      · exact ⟨_, _, rfl⟩
      · rcases List.mem_cons.mp he with rfl | he
        · exact ⟨_, _, rfl⟩
        · cases he

lemma selCount_spiTransfer (resp : Resp) (b : Nat) (t : Trace) :
    selCount (spiTransfer resp b t).2 = selCount t := by
  have h : (spiTransfer resp b t).2
      = t ++ [.xfer (b % 256) (resp (xferCount t) % 256)] := rfl
  rw [h, selCount_append]
  rfl

lemma unselCount_spiTransfer (resp : Resp) (b : Nat) (t : Trace) :
    unselCount (spiTransfer resp b t).2 = unselCount t := by
  have h : (spiTransfer resp b t).2
      = t ++ [.xfer (b % 256) (resp (xferCount t) % 256)] := rfl
  rw [h, unselCount_append]
  rfl

lemma selCount_sendAddr (resp : Resp) (addr : Int) (t : Trace) :
    selCount (sendAddr resp addr t) = selCount t := (counts_sendAddr resp addr t).1

lemma unselCount_sendAddr (resp : Resp) (addr : Int) (t : Trace) :
    unselCount (sendAddr resp addr t) = unselCount t := (counts_sendAddr resp addr t).2

lemma selCount_unselect (t : Trace) : selCount (unselect t) = selCount t :=
  (counts_unselect t).1

lemma unselCount_unselect (t : Trace) : unselCount (unselect t) = unselCount t + 1 :=
  (counts_unselect t).2

lemma selCount_recvLoop (resp : Resp) (n : Nat) (t : Trace) :
    selCount (recvLoop resp n t).2 = selCount t := by
  rw [(recvLoop_shape resp n t).1, selCount_append, selCount_recvTrace]
  omega

lemma unselCount_recvLoop (resp : Resp) (n : Nat) (t : Trace) :
    unselCount (recvLoop resp n t).2 = unselCount t := by
  rw [(recvLoop_shape resp n t).1, unselCount_append, unselCount_recvTrace]
  omega

attribute [simp] selCount_spiTransfer unselCount_spiTransfer selCount_sendAddr
  unselCount_sendAddr selCount_unselect unselCount_unselect selCount_recvLoop
  unselCount_recvLoop selCount_xferSeq unselCount_xferSeq

lemma counts_readUniqueId {resp : Resp} {fuel : Nat} {t : Trace}
    {out : List Nat} {t' : Trace}
    (h : readUniqueId resp fuel t = some (out, t')) : balancedFrom t t' := by
  unfold readUniqueId at h
  cases hw : command resp fuel SPIFLASH_MACREAD false t with
  | none => rw [hw] at h; cases h
  | some t1 =>
    rw [hw] at h
    simp only [Option.some.injEq, Prod.mk.injEq] at h
    obtain ⟨-, ht⟩ := h
    obtain ⟨k, hs, hu⟩ := counts_command hw
    refine ⟨k + 1, ?_, ?_⟩ <;> rw [← ht] <;> simp <;> omega

lemma counts_readByte {resp : Resp} {fuel : Nat} {addr : Int} {t : Trace}
    {v : Nat} {t' : Trace} (h : readByte resp fuel addr t = some (v, t')) :
    balancedFrom t t' := by
  unfold readByte at h
  cases hw : command resp fuel SPIFLASH_ARRAYREADLOWFREQ false t with
  | none => rw [hw] at h; cases h
  | some t1 =>
    rw [hw] at h
    simp only [Option.some.injEq, Prod.mk.injEq] at h
    obtain ⟨-, ht⟩ := h
    obtain ⟨k, hs, hu⟩ := counts_command hw
    refine ⟨k + 1, ?_, ?_⟩ <;> rw [← ht] <;> simp <;> omega

lemma counts_readBytes {resp : Resp} {fuel : Nat} {addr : Int} {len : Nat}
    {t : Trace} {out : List Nat} {t' : Trace}
    (h : readBytes resp fuel addr len t = some (out, t')) : balancedFrom t t' := by
  unfold readBytes at h
  cases hw : command resp fuel SPIFLASH_ARRAYREAD false t with
  | none => rw [hw] at h; cases h
  | some t1 =>
    rw [hw] at h
    simp only [Option.some.injEq, Prod.mk.injEq] at h
    obtain ⟨-, ht⟩ := h
    obtain ⟨k, hs, hu⟩ := counts_command hw
    refine ⟨k + 1, ?_, ?_⟩ <;> rw [← ht] <;> simp <;> omega

lemma counts_writeByte {resp : Resp} {fuel : Nat} {addr : Int} {byt : Nat}
    {t t' : Trace} (h : writeByte resp fuel addr byt t = some t') :
    balancedFrom t t' := by
  unfold writeByte at h
  cases hw : command resp fuel SPIFLASH_BYTEPAGEPROGRAM true t with
  | none => rw [hw] at h; cases h
  | some t1 =>
    rw [hw] at h
    simp only [Option.some.injEq] at h
    obtain ⟨k, hs, hu⟩ := counts_command hw
    refine ⟨k + 1, ?_, ?_⟩ <;> rw [← h] <;> simp <;> omega

lemma counts_chipErase {resp : Resp} {fuel : Nat} {t t' : Trace}
    (h : chipErase resp fuel t = some t') : balancedFrom t t' := by
  unfold chipErase at h
  cases hw : command resp fuel SPIFLASH_CHIPERASE true t with
  | none => rw [hw] at h; cases h
  | some t1 =>
    rw [hw] at h
    simp only [Option.some.injEq] at h
    obtain ⟨k, hs, hu⟩ := counts_command hw
    refine ⟨k + 1, ?_, ?_⟩ <;> rw [← h] <;> simp <;> omega

lemma counts_blockErase4K {resp : Resp} {fuel : Nat} {addr : Int} {t t' : Trace}
    (h : blockErase4K resp fuel addr t = some t') : balancedFrom t t' := by
  unfold blockErase4K at h
  cases hw : command resp fuel SPIFLASH_BLOCKERASE_4K true t with
  | none => rw [hw] at h; cases h
  | some t1 =>
    rw [hw] at h
    simp only [Option.some.injEq] at h
    obtain ⟨k, hs, hu⟩ := counts_command hw
    refine ⟨k + 1, ?_, ?_⟩ <;> rw [← h] <;> simp <;> omega

lemma counts_blockErase32K {resp : Resp} {fuel : Nat} {addr : Int} {t t' : Trace}
    (h : blockErase32K resp fuel addr t = some t') : balancedFrom t t' := by
  unfold blockErase32K at h
  cases hw : command resp fuel SPIFLASH_BLOCKERASE_32K true t with
  | none => rw [hw] at h; cases h
  | some t1 =>
    rw [hw] at h
    simp only [Option.some.injEq] at h
    obtain ⟨k, hs, hu⟩ := counts_command hw
    refine ⟨k + 1, ?_, ?_⟩ <;> rw [← h] <;> simp <;> omega

lemma counts_sleep {resp : Resp} {fuel : Nat} {t t' : Trace}
    (h : sleep resp fuel t = some t') : balancedFrom t t' := by
  unfold sleep at h
  cases hw : command resp fuel SPIFLASH_SLEEP false t with
  | none => rw [hw] at h; cases h
  | some t1 =>
    rw [hw] at h
    simp only [Option.some.injEq] at h
    obtain ⟨k, hs, hu⟩ := counts_command hw
    refine ⟨k + 1, ?_, ?_⟩ <;> rw [← h] <;> simp <;> omega

lemma counts_wakeup {resp : Resp} {fuel : Nat} {t t' : Trace}
    (h : wakeup resp fuel t = some t') : balancedFrom t t' := by
  unfold wakeup at h
  cases hw : command resp fuel SPIFLASH_WAKE false t with
  | none => rw [hw] at h; cases h
  | some t1 =>
    rw [hw] at h
    simp only [Option.some.injEq] at h
    obtain ⟨k, hs, hu⟩ := counts_command hw
    refine ⟨k + 1, ?_, ?_⟩ <;> rw [← h] <;> simp <;> omega

lemma counts_writeBytesLoop (resp : Resp) (fuel : Nat) (buf : Nat → Nat) :
    ∀ (k : Nat) (addr : Int) (offset len maxB : Nat) (t t' : Trace),
      writeBytesLoop resp fuel buf k addr offset len maxB t = some t' →
        balancedFrom t t' := by
  intro k
  induction k with
  | zero =>
    intro addr offset len maxB t t' h
    simp only [writeBytesLoop] at h
    by_cases hl : len = 0
    · rw [if_pos hl] at h
      cases h
      exact ⟨0, rfl, rfl⟩
    · rw [if_neg hl] at h
      cases h
  | succ k ih =>
    intro addr offset len maxB t t' h
    simp only [writeBytesLoop] at h
    by_cases hl : len = 0
    · rw [if_pos hl] at h
      cases h
      exact ⟨0, rfl, rfl⟩
    · rw [if_neg hl] at h
      cases hw : command resp fuel SPIFLASH_BYTEPAGEPROGRAM true t with
      | none => rw [hw] at h; cases h
      | some t1 =>
        rw [hw] at h
        refine balancedFrom_trans (b := unselect (xferSeq resp
          ((List.range (if len ≤ maxB then len else maxB)).map fun i => buf (offset + i))
          (sendAddr resp addr t1))) ?_ (ih _ _ _ _ _ _ h)
        obtain ⟨k1, hs, hu⟩ := counts_command hw
        refine ⟨k1 + 1, ?_, ?_⟩ <;> simp [hs, hu] <;> omega

lemma counts_initFlash {resp : Resp} {fuel jedec : Nat} {leo : Bool}
    {t : Trace} {b : Bool} {t' : Trace}
    (h : initFlash resp fuel jedec leo t = some (b, t')) :
    ∃ k, selCount t' = selCount t + k ∧ unselCount t' = unselCount t + k + 1 := by
  unfold initFlash at h
  cases hw : wakeup resp fuel (unselect t) with
  | none => rw [hw] at h; cases h
  | some t1 =>
    rw [hw] at h
    dsimp only at h
    obtain ⟨k1, hs1, hu1⟩ := counts_wakeup hw
    rw [selCount_unselect] at hs1
    rw [unselCount_unselect] at hu1
    by_cases hj : jedec = 0
    · rw [if_pos hj] at h
      cases hc : command resp fuel SPIFLASH_STATUSWRITE true t1 with
      | none => rw [hc] at h; cases h
      | some t2 =>
        rw [hc] at h
        simp only [Option.some.injEq, Prod.mk.injEq] at h
        obtain ⟨-, ht⟩ := h
        obtain ⟨k2, hs2, hu2⟩ := counts_command hc
        refine ⟨k1 + k2 + 1, ?_, ?_⟩ <;> rw [← ht] <;> simp [hs2, hu2] <;> omega
    · rw [if_neg hj] at h
      cases hr : readDeviceId resp fuel leo t1 with
      | none => rw [hr] at h; cases h
      | some p =>
        rw [hr] at h
        obtain ⟨id, t2⟩ := p
        dsimp only at h
        obtain ⟨k2, hs2, hu2⟩ := counts_readDeviceId hr
        by_cases hid : id = jedec
        · rw [if_pos hid] at h
          cases hc : command resp fuel SPIFLASH_STATUSWRITE true t2 with
          | none => rw [hc] at h; cases h
          | some t3 =>
            rw [hc] at h
            simp only [Option.some.injEq, Prod.mk.injEq] at h
            obtain ⟨-, ht⟩ := h
            obtain ⟨k3, hs3, hu3⟩ := counts_command hc
            refine ⟨k1 + k2 + k3 + 1, ?_, ?_⟩ <;> rw [← ht] <;>
              simp [hs3, hu3] <;> omega
        · rw [if_neg hid] at h
          simp only [Option.some.injEq, Prod.mk.injEq] at h
          obtain ⟨-, ht⟩ := h
          rw [← ht]
          exact ⟨k1 + k2, by omega, by omega⟩

/-!  The page-split arithmetic of `writeBytes`. -/

lemma firstLimit_pos (addr : Int) : 1 ≤ firstLimit addr := by
  have h := Int.tmod_lt_of_pos addr (b := 256) (by norm_num)
  unfold firstLimit
  generalize Int.tmod addr 256 = x at h ⊢
  omega

lemma firstLimit_eq (addr : Int) (h : 0 ≤ addr) :
    firstLimit addr = 256 - (addr % 256).toNat := by
  unfold firstLimit
  rw [Int.tmod_eq_emod h (by norm_num)]
  have h1 : 0 ≤ addr % 256 := Int.emod_nonneg addr (by norm_num)
  have h2 : addr % 256 < 256 := Int.emod_lt_of_pos addr (by norm_num)
  omega

lemma burstsLoop_len_zero (buf : Nat → Nat) (k : Nat) (addr : Int)
    (offset maxB : Nat) : writeBurstsLoop buf k addr offset 0 maxB = [] := by
  cases k with
  | zero => rfl
  | succ k => simp [writeBurstsLoop]

lemma burstsLoop_head_le (buf : Nat → Nat) (k : Nat) (addr : Int)
    (offset len maxB : Nat) :
    ∀ b, (writeBurstsLoop buf k addr offset len maxB).head? = some b →
      b.2.length ≤ maxB := by
  intro b hb
  cases k with
  | zero => simp [writeBurstsLoop] at hb
  | succ k =>
    by_cases hl : len = 0
    · simp [writeBurstsLoop, hl] at hb
    · simp only [writeBurstsLoop, if_neg hl, List.head?_cons,
        Option.some.injEq] at hb
      subst hb
      simp only [List.length_map, List.length_range]
      split <;> omega

lemma writeBursts_single (addr : Int) (buf : Nat → Nat) (len : Nat)
    (h1 : 0 < len) (h2 : len ≤ firstLimit addr) :
    writeBursts addr buf len = [(addr, (List.range len).map buf)] := by
  unfold writeBursts
  cases len with
  | zero => omega
  | succ k =>
    simp only [writeBurstsLoop, if_neg (Nat.succ_ne_zero k), if_pos h2]
    rw [Nat.sub_self, burstsLoop_len_zero]
    simp

lemma burstsLoop_spec (buf : Nat → Nat) :
    ∀ (k : Nat) (addr : Int) (offset len maxB : Nat),
      0 ≤ addr → len ≤ k → maxB = 256 - (addr % 256).toNat →
      partitionFrom addr len (writeBurstsLoop buf k addr offset len maxB)
      ∧ (∀ b ∈ writeBurstsLoop buf k addr offset len maxB,
          (b.1 % 256).toNat + b.2.length ≤ 256)
      ∧ flatData (writeBurstsLoop buf k addr offset len maxB)
          = (List.range len).map fun i => buf (offset + i) := by
  intro k
  induction k with
  | zero =>
    intro addr offset len maxB _ hlen _
    have h0 : len = 0 := Nat.le_zero.mp hlen
    subst h0
    exact ⟨rfl, by simp [writeBurstsLoop], by simp [writeBurstsLoop, flatData]⟩
  | succ k ih =>
    intro addr offset len maxB ha hlen hinv
    by_cases hl : len = 0
    · subst hl
      exact ⟨rfl, by simp [burstsLoop_len_zero], by
        simp [burstsLoop_len_zero, flatData]⟩
    · have he1 : 0 ≤ addr % 256 := Int.emod_nonneg addr (by norm_num)
      have he2 : addr % 256 < 256 := Int.emod_lt_of_pos addr (by norm_num)
      simp only [writeBurstsLoop, if_neg hl]
      set n := if len ≤ maxB then len else maxB with hn
      have hn1 : 1 ≤ n := by rw [hn]; split <;> omega
      have hnm : n ≤ maxB := by rw [hn]; split <;> omega
      have hnl : n ≤ len := by rw [hn]; split <;> omega
      have hlen' : (((List.range n).map fun i => buf (offset + i))).length = n := by
        simp
      have hrange : (List.range len).map (fun i => buf (offset + i))
          = ((List.range n).map fun i => buf (offset + i))
            ++ ((List.range (len - n)).map fun i => buf (offset + n + i)) := by
        conv_lhs => rw [show len = n + (len - n) by omega, List.range_add]
        rw [List.map_append, List.map_map]
        congr 1
        apply List.map_congr_left
        intro x _
        simp only [Function.comp_apply]
        congr 1
        omega
      by_cases hcase : len ≤ maxB
      · have hnn : n = len := by rw [hn, if_pos hcase]
        have hrest : writeBurstsLoop buf k (addr + ↑n) (offset + n) (len - n) 256
            = [] := by
          rw [hnn, Nat.sub_self, burstsLoop_len_zero]
        refine ⟨?_, ?_, ?_⟩
        · rw [hrest]
          refine ⟨rfl, by omega, by simp [hlen']; omega, ?_⟩
          rw [hlen']
          show len - n = 0
          omega
        · intro b hb
          rw [hrest] at hb
          rcases List.mem_cons.mp hb with rfl | hb
          · simp only [List.length_map, List.length_range]
            omega
          · cases hb
        · rw [hrest]
          show ((List.range n).map fun i => buf (offset + i)) ++ flatData []
            = (List.range len).map fun i => buf (offset + i)
          rw [hnn]
          simp [flatData]
      · have hnn : n = maxB := by rw [hn, if_neg hcase]
        have haddr' : 0 ≤ addr + ↑n := by positivity
        have hmod : (addr + ↑n) % 256 = 0 := by
          have hd := Int.ediv_add_emod addr 256
          have hn256 : (n : Int) = 256 - addr % 256 := by
            rw [hnn, hinv]; omega
          omega
        have hrec := ih (addr + ↑n) (offset + n) (len - n) 256 haddr'
          (by omega) (by rw [hmod]; rfl)
        refine ⟨?_, ?_, ?_⟩
        · exact ⟨rfl, by omega, by simp [hlen']; omega, by rw [hlen']; exact hrec.1⟩
        · intro b hb
          rcases List.mem_cons.mp hb with rfl | hb
          · simp only [List.length_map, List.length_range]
            omega
          · exact hrec.2.1 b hb
        · show ((List.range n).map fun i => buf (offset + i)) ++ _ = _
          rw [hrec.2.2, hrange]

lemma writeBytesLoop_eq_runBursts (resp : Resp) (fuel : Nat) (buf : Nat → Nat) :
    ∀ (k : Nat) (addr : Int) (offset len maxB : Nat) (t : Trace),
      len ≤ k → 1 ≤ maxB →
      writeBytesLoop resp fuel buf k addr offset len maxB t
        = runBursts resp fuel (writeBurstsLoop buf k addr offset len maxB) t := by
  intro k
  induction k with
  | zero =>
    intro addr offset len maxB t hlen _
    have h0 : len = 0 := Nat.le_zero.mp hlen
    subst h0
    simp [writeBytesLoop, writeBurstsLoop, runBursts]
  | succ k ih =>
    intro addr offset len maxB t hlen hmax
    by_cases hl : len = 0
    · subst hl
      simp [writeBytesLoop, writeBurstsLoop, runBursts]
    · simp only [writeBytesLoop, writeBurstsLoop, if_neg hl]
      set n := if len ≤ maxB then len else maxB with hn
      have hn1 : 1 ≤ n := by rw [hn]; split <;> omega
      cases hc : command resp fuel SPIFLASH_BYTEPAGEPROGRAM true t with
      | none => simp [runBursts, hc]
      | some t1 =>
        simp only [runBursts, hc]
        exact ih _ _ _ _ _ (by omega) (by omega)

lemma writeBytes_eq_runBursts (resp : Resp) (fuel : Nat) (addr : Int)
    (buf : Nat → Nat) (len : Nat) (t : Trace) :
    writeBytes resp fuel addr buf len t
      = runBursts resp fuel (writeBursts addr buf len) t :=
  writeBytesLoop_eq_runBursts resp fuel buf len addr 0 len (firstLimit addr) t
    (Nat.le_refl len) (firstLimit_pos addr)

lemma not_crossesPage_of_bound {s : Int} {n : Nat}
    (h : (s % 256).toNat + n ≤ 256) : ¬ crossesPage s n := by
  rintro ⟨m, h1, h2⟩
  have he1 : 0 ≤ s % 256 := Int.emod_nonneg s (by norm_num)
  have he2 : s % 256 < 256 := Int.emod_lt_of_pos s (by norm_num)
  have hd := Int.ediv_add_emod s 256
  omega

/-!  Byte-level address encoding. -/

lemma and255 (x : Nat) : x &&& 255 = x % 256 := by
  have h := Nat.and_pow_two_sub_one_eq_mod x 8
  norm_num at h
  exact h

lemma toByte_asr (a k : Nat) : toByte (asr (a : Int) k) = (a >>> k) % 256 := by
  unfold toByte asr
  rw [Nat.shiftRight_eq_div_pow, Int.fdiv_eq_ediv _ (by positivity)]
  have h2 : ((2 : Int) ^ k) = ((2 ^ k : Nat) : Int) := by push_cast; ring
  have h3 : (a : Int) / ((2 : Int) ^ k) = ((a / 2 ^ k : Nat) : Int) := by
    rw [h2, ← Int.ofNat_ediv]
  rw [h3]
  omega

lemma toByte_asr_and (a k : Nat) : toByte (asr (a : Int) k) = (a >>> k) &&& 255 := by
  rw [toByte_asr, and255]

lemma toByte_natCast_and (a : Nat) : toByte (a : Int) = a &&& 255 := by
  rw [and255]
  unfold toByte
  omega

/-!  Full trace shapes of the address-taking operations. -/

lemma readByte_shape {resp : Resp} {fuel : Nat} {addr : Int} {t : Trace}
    {v : Nat} {t' : Trace} (h : readByte resp fuel addr t = some (v, t')) :
    ∃ ps r0 r1 r2 r3, readyRun ps ∧
      t' = t ++ pollsTrace ps ++ [.sel, .xfer 3 r0,
        .xfer (toByte (asr addr 16)) r1, .xfer (toByte (asr addr 8)) r2,
        .xfer (toByte addr) r3, .xfer 0 v, .unsel] := by
  unfold readByte at h
  cases hw : command resp fuel SPIFLASH_ARRAYREADLOWFREQ false t with
  | none => rw [hw] at h; cases h
  | some t1 =>
    rw [hw] at h
    simp only [Option.some.injEq, Prod.mk.injEq] at h
    obtain ⟨hv, ht⟩ := h
    obtain ⟨ps, r0, hps, ht1⟩ := command_false_shape hw
    obtain ⟨r1, r2, r3, hsa⟩ := sendAddr_shape resp addr t1
    refine ⟨ps, r0, r1, r2, r3, hps, ?_⟩
    rw [← ht, ← hv, hsa, ht1]
    simp [spiTransfer, unselect, SPIFLASH_ARRAYREADLOWFREQ, List.append_assoc]

lemma readBytes_shape {resp : Resp} {fuel : Nat} {addr : Int} {len : Nat}
    {t : Trace} {out : List Nat} {t' : Trace}
    (h : readBytes resp fuel addr len t = some (out, t')) :
    out.length = len ∧ ∃ ps r0 r1 r2 r3 rd, readyRun ps ∧
      t' = t ++ pollsTrace ps ++ [.sel, .xfer 11 r0,
        .xfer (toByte (asr addr 16)) r1, .xfer (toByte (asr addr 8)) r2,
        .xfer (toByte addr) r3, .xfer 0 rd]
        ++ recvTrace out ++ [.unsel] := by
  unfold readBytes at h
  cases hw : command resp fuel SPIFLASH_ARRAYREAD false t with
  | none => rw [hw] at h; cases h
  | some t1 =>
    rw [hw] at h
    simp only [Option.some.injEq, Prod.mk.injEq] at h
    obtain ⟨hout, ht⟩ := h
    obtain ⟨ps, r0, hps, ht1⟩ := command_false_shape hw
    obtain ⟨r1, r2, r3, hsa⟩ := sendAddr_shape resp addr t1
    set t2 := (spiTransfer resp 0 (sendAddr resp addr t1)).2 with ht2
    obtain ⟨hrl, hrlen⟩ := recvLoop_shape resp len t2
    constructor
    · rw [← hout, hrlen]
    · refine ⟨ps, r0, r1, r2, r3, (spiTransfer resp 0 (sendAddr resp addr t1)).1,
        hps, ?_⟩
      rw [← ht, hrl, ← hout, ht2, hsa, ht1]
      simp [spiTransfer, unselect, SPIFLASH_ARRAYREAD, List.append_assoc]

lemma writeByte_shape {resp : Resp} {fuel : Nat} {addr : Int} {byt : Nat}
    {t t' : Trace} (h : writeByte resp fuel addr byt t = some t') :
    ∃ ps₀ r₀ ps₁ r1 r2 r3 r4 r5, readyRun ps₀ ∧ readyRun ps₁ ∧
      t' = t ++ pollsTrace ps₀ ++ [.sel, .xfer 6 r₀, .unsel]
        ++ pollsTrace ps₁ ++ [.sel, .xfer 2 r1,
        .xfer (toByte (asr addr 16)) r2, .xfer (toByte (asr addr 8)) r3,
        .xfer (toByte addr) r4, .xfer (byt % 256) r5, .unsel] := by
  unfold writeByte at h
  cases hw : command resp fuel SPIFLASH_BYTEPAGEPROGRAM true t with
  | none => rw [hw] at h; cases h
  | some t1 =>
    rw [hw] at h
    simp only [Option.some.injEq] at h
    obtain ⟨ps₀, r₀, ps₁, r1, hps₀, hps₁, ht1⟩ := command_true_shape hw
    obtain ⟨r2, r3, r4, hsa⟩ := sendAddr_shape resp addr t1
    refine ⟨ps₀, r₀, ps₁, r1, r2, r3, r4,
      (spiTransfer resp byt (sendAddr resp addr t1)).1, hps₀, hps₁, ?_⟩
    rw [← h, hsa, ht1]
    simp [spiTransfer, unselect, SPIFLASH_BYTEPAGEPROGRAM, List.append_assoc]

lemma blockErase4K_shape {resp : Resp} {fuel : Nat} {addr : Int} {t t' : Trace}
    (h : blockErase4K resp fuel addr t = some t') :
    ∃ ps₀ r₀ ps₁ r1 r2 r3 r4, readyRun ps₀ ∧ readyRun ps₁ ∧
      t' = t ++ pollsTrace ps₀ ++ [.sel, .xfer 6 r₀, .unsel]
        ++ pollsTrace ps₁ ++ [.sel, .xfer 32 r1,
        .xfer (toByte (asr addr 16)) r2, .xfer (toByte (asr addr 8)) r3,
        .xfer (toByte addr) r4, .unsel] := by
  unfold blockErase4K at h
  cases hw : command resp fuel SPIFLASH_BLOCKERASE_4K true t with
  | none => rw [hw] at h; cases h
  | some t1 =>
    rw [hw] at h
    simp only [Option.some.injEq] at h
    obtain ⟨ps₀, r₀, ps₁, r1, hps₀, hps₁, ht1⟩ := command_true_shape hw
    obtain ⟨r2, r3, r4, hsa⟩ := sendAddr_shape resp addr t1
    refine ⟨ps₀, r₀, ps₁, r1, r2, r3, r4, hps₀, hps₁, ?_⟩
    rw [← h, hsa, ht1]
    simp [unselect, SPIFLASH_BLOCKERASE_4K, List.append_assoc]

lemma blockErase32K_shape {resp : Resp} {fuel : Nat} {addr : Int} {t t' : Trace}
    (h : blockErase32K resp fuel addr t = some t') :
    ∃ ps₀ r₀ ps₁ r1 r2 r3 r4, readyRun ps₀ ∧ readyRun ps₁ ∧
      t' = t ++ pollsTrace ps₀ ++ [.sel, .xfer 6 r₀, .unsel]
        ++ pollsTrace ps₁ ++ [.sel, .xfer 82 r1,
        .xfer (toByte (asr addr 16)) r2, .xfer (toByte (asr addr 8)) r3,
        .xfer (toByte addr) r4, .unsel] := by
  unfold blockErase32K at h
  cases hw : command resp fuel SPIFLASH_BLOCKERASE_32K true t with
  | none => rw [hw] at h; cases h
  | some t1 =>
    rw [hw] at h
    simp only [Option.some.injEq] at h
    obtain ⟨ps₀, r₀, ps₁, r1, hps₀, hps₁, ht1⟩ := command_true_shape hw
    obtain ⟨r2, r3, r4, hsa⟩ := sendAddr_shape resp addr t1
    refine ⟨ps₀, r₀, ps₁, r1, r2, r3, r4, hps₀, hps₁, ?_⟩
    rw [← h, hsa, ht1]
    simp [unselect, SPIFLASH_BLOCKERASE_32K, List.append_assoc]

lemma runBursts_mono {resp : Resp} {fuel : Nat} :
    ∀ {bs : List (Int × List Nat)} {t t' : Trace},
      runBursts resp fuel bs t = some t' → ∃ u, t' = t ++ u := by
  intro bs
  induction bs with
  | nil =>
    intro t t' h
    simp only [runBursts, Option.some.injEq] at h
    exact ⟨[], by simp [← h]⟩
  | cons b bs ih =>
    intro t t' h
    obtain ⟨s, d⟩ := b
    simp only [runBursts] at h
    cases hc : command resp fuel SPIFLASH_BYTEPAGEPROGRAM true t with
    | none => rw [hc] at h; cases h
    | some t1 =>
      rw [hc] at h
      obtain ⟨u, hu⟩ := ih h
      obtain ⟨ps₀, r₀, ps₁, r1, _, _, ht1⟩ := command_true_shape hc
      obtain ⟨w, hw, -⟩ := xferSeq_shape resp d (sendAddr resp s t1)
      obtain ⟨q1, q2, q3, hsa⟩ := sendAddr_shape resp s t1
      rw [hw, hsa, ht1, unselect] at hu
      simp only [List.append_assoc, List.cons_append, List.nil_append] at hu
      exact ⟨_, hu⟩

lemma writeBytes_first_shape {resp : Resp} {fuel : Nat} {addr : Int}
    {buf : Nat → Nat} {len : Nat} {t t' : Trace}
    (h : writeBytes resp fuel addr buf len t = some t') (hlen : 0 < len) :
    ∃ u ps₁ r1 r2 r3 r4 w, readyRun ps₁ ∧
      t' = u ++ pollsTrace ps₁ ++ [.sel, .xfer 2 r1,
        .xfer (toByte (asr addr 16)) r2, .xfer (toByte (asr addr 8)) r3,
        .xfer (toByte addr) r4] ++ w := by
  rw [writeBytes_eq_runBursts] at h
  have hb : ∃ d bs, writeBursts addr buf len = (addr, d) :: bs := by
    unfold writeBursts
    cases len with
    | zero => omega
    | succ k =>
      simp only [writeBurstsLoop, if_neg (Nat.succ_ne_zero k)]
      exact ⟨_, _, rfl⟩
  obtain ⟨d, bs, hbs⟩ := hb
  rw [hbs] at h
  simp only [runBursts] at h
  cases hc : command resp fuel SPIFLASH_BYTEPAGEPROGRAM true t with
  | none => rw [hc] at h; cases h
  | some t1 =>
    rw [hc] at h
    obtain ⟨u, hu⟩ := runBursts_mono h
    obtain ⟨ps₀, r₀, ps₁, r1, hps₀, hps₁, ht1⟩ := command_true_shape hc
    obtain ⟨w0, hw0, -⟩ := xferSeq_shape resp d (sendAddr resp addr t1)
    obtain ⟨q1, q2, q3, hsa⟩ := sendAddr_shape resp addr t1
    refine ⟨t ++ pollsTrace ps₀ ++ [.sel, .xfer 6 r₀, .unsel], ps₁, r1,
      q1, q2, q3, w0 ++ [.unsel] ++ u, hps₁, ?_⟩
    rw [hu, hw0, hsa, ht1, unselect]
    simp [List.append_assoc, SPIFLASH_BYTEPAGEPROGRAM]

/-!  The claims. -/

/-- C1.  Page-split law: for every nonnegative address `addr` and length
`len`, the program bursts produced by `writeBytes(addr, buf, len)` tile the
interval from `addr` of length `len`; no burst crosses a multiple of 256; the
first burst writes at most `firstLimit addr = 256 - (addr mod 256)` bytes and
every burst at most 256; concatenating the bursts' data in order equals the
first `len` bytes of `buf`; and the bus trace of `writeBytes` is exactly the
execution of those bursts (each burst a mutating BYTE-OR-PAGE-PROGRAM command
with its address and data).  The address is required to be nonnegative: C10
records that a negative address breaks the first-burst limit. -/
theorem writeBytes_page_split_law (addr : Int) (buf : Nat → Nat) (len : Nat)
    (h : 0 ≤ addr) :
    partitionFrom addr len (writeBursts addr buf len)
    ∧ (∀ b ∈ writeBursts addr buf len, ¬ crossesPage b.1 b.2.length)
    ∧ (∀ b, (writeBursts addr buf len).head? = some b →
        b.2.length ≤ firstLimit addr)
    ∧ (∀ b ∈ writeBursts addr buf len, b.2.length ≤ 256)
    ∧ flatData (writeBursts addr buf len) = (List.range len).map buf
    ∧ ∀ (resp : Resp) (fuel : Nat) (t : Trace),
        writeBytes resp fuel addr buf len t
          = runBursts resp fuel (writeBursts addr buf len) t := by
  obtain ⟨hpart, hmem, hflat⟩ :=
    burstsLoop_spec buf len addr 0 len (firstLimit addr) h (Nat.le_refl len)
      (firstLimit_eq addr h)
  refine ⟨hpart, ?_, ?_, ?_, ?_, ?_⟩
  · intro b hb
    exact not_crossesPage_of_bound (hmem b hb)
  · intro b hb
    exact burstsLoop_head_le buf len addr 0 len (firstLimit addr) b hb
  · intro b hb
    have := hmem b hb
    omega
  · show flatData (writeBurstsLoop buf len addr 0 len (firstLimit addr))
      = (List.range len).map buf
    rw [hflat]
    simp
  · intro resp fuel t
    exact writeBytes_eq_runBursts resp fuel addr buf len t

/-- C2.  Write-enable precedes every mutating opcode: every completing call of
`command` with the mutating flag set leaves a trace in which the mutating
opcode byte is preceded, within the same call, by a complete WRITE-ENABLE
transaction (select, opcode 0x06, unselect), with nothing but the mandated
busy-wait STATUS-READ transactions between the two.  Every mutating opcode of
the driver (STATUS-WRITE in initialize, BYTE-OR-PAGE-PROGRAM in writeByte and
writeBytes, BLOCK-ERASE-4K, BLOCK-ERASE-32K, CHIP-ERASE) is issued through
exactly this path. -/
theorem command_write_enable_precedes (resp : Resp) (fuel cmd : Nat)
    (t t' : Trace) (h : command resp fuel cmd true t = some t') :
    ∃ ps₀ r₀ ps₁ r₁,
      t' = t ++ pollsTrace ps₀ ++ [.sel, .xfer 6 r₀, .unsel]
             ++ pollsTrace ps₁ ++ [.sel, .xfer (cmd % 256) r₁] := by
  obtain ⟨ps₀, r₀, ps₁, r₁, -, -, ht⟩ := command_true_shape h
  exact ⟨ps₀, r₀, ps₁, r₁, ht⟩

/-- C3 counterexample.  The claim says every public operation's opcode byte
transmissions are each preceded by at least one STATUS-READ.  It is false on
the code: `readDeviceId` on the direct (non-Leonardo) path transmits the
JEDEC-ID opcode 0x9F (here at trace position 1) while its trace contains no
STATUS-READ transmission at all; `readStatus` itself likewise sends opcode
0x05 with no prior STATUS-READ. -/
theorem readDeviceId_opcode_without_status_read :
    readDeviceId (fun _ => 0) 1 false []
      = some (0, [.sel, .xfer 159 0, .xfer 0 0, .xfer 0 0, .unsel])
    ∧ List.filter isStatusRead
        [BusEvent.sel, .xfer 159 0, .xfer 0 0, .xfer 0 0, .unsel] = [] := by
  constructor
  · decide
  · decide

/-- C3 (amended).  Every opcode issued through `command` — the WRITE-ENABLE
opcode included — is immediately preceded by a nonempty run of STATUS-READ
transactions in which every poll but the last returned busy (bit 0 set) and
the last returned ready (bit 0 clear).  Operations that bypass `command`
(readStatus, busy, and readDeviceId's direct path) transmit their opcode with
no preceding STATUS-READ, so the claim as stated fails for them. -/
theorem command_opcode_busy_gate (resp : Resp) (fuel cmd : Nat) (iw : Bool)
    (t t' : Trace) (h : command resp fuel cmd iw t = some t') :
    ∃ u ps r, readyRun ps
      ∧ t' = u ++ pollsTrace ps ++ [.sel, .xfer (cmd % 256) r]
      ∧ (iw = false → u = t)
      ∧ (iw = true → ∃ ps₀ r₀, readyRun ps₀ ∧
          u = t ++ pollsTrace ps₀ ++ [.sel, .xfer 6 r₀, .unsel]) := by
  cases iw with
  | false =>
    obtain ⟨ps, r, hps, ht⟩ := command_false_shape h
    refine ⟨t, ps, r, hps, by simp [ht, List.append_assoc], fun _ => rfl, ?_⟩
    intro hfalse
    cases hfalse
  | true =>
    obtain ⟨ps₀, r₀, ps₁, r₁, hps₀, hps₁, ht⟩ := command_true_shape h
    refine ⟨t ++ pollsTrace ps₀ ++ [.sel, .xfer 6 r₀, .unsel], ps₁, r₁, hps₁,
      by simp [ht, List.append_assoc], ?_, ?_⟩
    · intro hfalse
      cases hfalse
    · intro _
      exact ⟨ps₀, r₀, hps₀, rfl⟩

/-- C4 counterexample.  The claim says every public operation that performs
bus I/O has as many selects as unselects in its trace; `initialize` does not:
its defensive `unselect()` at entry (line 64) gives the successful
zero-identifier run below 6 selects and 7 unselects. -/
theorem initFlash_unbalanced_framing :
    (initFlash (fun _ => 0) 1 0 false []).map
        (fun p => (selCount p.2, unselCount p.2)) = some (6, 7)
    ∧ (6 : Nat) ≠ 7 := by
  constructor
  · decide
  · decide

/-- C4 (amended).  Balanced framing holds for every public bus operation
except `initialize`: readDeviceId, readUniqueId, readByte, readBytes,
readStatus, busy, writeByte, writeBytes, chipErase, blockErase4K,
blockErase32K, sleep and wakeup append as many selects as unselects to the
trace, while every completing `initialize` run has exactly one more unselect
than selects (the defensive `unselect()` at line 64). -/
theorem balanced_framing_per_op
    (resp : Resp) (fuel : Nat) (leo : Bool) (addr : Int) (byt len jedec : Nat)
    (buf : Nat → Nat)
    (id1 : Nat) (u1 : Trace) (o2 : List Nat) (u2 : Trace)
    (v3 : Nat) (u3 : Trace) (o4 : List Nat) (u4 : Trace)
    (u5 u6 u7 u8 u9 u10 u11 : Trace) (b12 : Bool) (u12 : Trace)
    (h1 : readDeviceId resp fuel leo [] = some (id1, u1))
    (h2 : readUniqueId resp fuel [] = some (o2, u2))
    (h3 : readByte resp fuel addr [] = some (v3, u3))
    (h4 : readBytes resp fuel addr len [] = some (o4, u4))
    (h5 : writeByte resp fuel addr byt [] = some u5)
    (h6 : writeBytes resp fuel addr buf len [] = some u6)
    (h7 : chipErase resp fuel [] = some u7)
    (h8 : blockErase4K resp fuel addr [] = some u8)
    (h9 : blockErase32K resp fuel addr [] = some u9)
    (h10 : sleep resp fuel [] = some u10)
    (h11 : wakeup resp fuel [] = some u11)
    (h12 : initFlash resp fuel jedec leo [] = some (b12, u12)) :
    selCount (readStatus resp []).2 = unselCount (readStatus resp []).2
    ∧ selCount (busy resp []).2 = unselCount (busy resp []).2
    ∧ selCount u1 = unselCount u1 ∧ selCount u2 = unselCount u2
    ∧ selCount u3 = unselCount u3 ∧ selCount u4 = unselCount u4
    ∧ selCount u5 = unselCount u5 ∧ selCount u6 = unselCount u6
    ∧ selCount u7 = unselCount u7 ∧ selCount u8 = unselCount u8
    ∧ selCount u9 = unselCount u9 ∧ selCount u10 = unselCount u10
    ∧ selCount u11 = unselCount u11
    ∧ unselCount u12 = selCount u12 + 1 := by
  have h0s : selCount ([] : Trace) = 0 := rfl
  have h0u : unselCount ([] : Trace) = 0 := rfl
  have hnil : ∀ u : Trace, balancedFrom [] u → selCount u = unselCount u := by
    rintro u ⟨k, hs, hk⟩
    omega
  refine ⟨hnil _ (counts_readStatus resp []), hnil _ (counts_readStatus resp []),
    hnil _ (counts_readDeviceId h1), hnil _ (counts_readUniqueId h2),
    hnil _ (counts_readByte h3), hnil _ (counts_readBytes h4),
    hnil _ (counts_writeByte h5),
    hnil _ (counts_writeBytesLoop resp fuel buf len addr 0 len
      (firstLimit addr) [] u6 h6),
    hnil _ (counts_chipErase h7), hnil _ (counts_blockErase4K h8),
    hnil _ (counts_blockErase32K h9), hnil _ (counts_sleep h10),
    hnil _ (counts_wakeup h11), ?_⟩
  obtain ⟨k, hs, hk⟩ := counts_initFlash h12
  omega

/-- C5.  Identifier probe: a completing `initialize` returns true exactly when
the configured identifier is 0 or the identifier read from the bus equals it;
on mismatch it returns false with no bus activity after the identifier read;
on success its trace ends with a complete STATUS-WRITE transaction carrying a
zero payload (select, opcode 0x01, byte 0x00, unselect) — the global
unprotect. -/
theorem initFlash_identifier_probe (resp : Resp) (fuel jedec : Nat)
    (leo : Bool) (t : Trace) (b : Bool) (t' : Trace)
    (h : initFlash resp fuel jedec leo t = some (b, t')) :
    (b = true ↔ (jedec = 0 ∨ ∃ tw id tr,
        wakeup resp fuel (unselect t) = some tw
        ∧ readDeviceId resp fuel leo tw = some (id, tr) ∧ id = jedec))
    ∧ (b = false → ∃ tw id tr, wakeup resp fuel (unselect t) = some tw
        ∧ readDeviceId resp fuel leo tw = some (id, tr) ∧ id ≠ jedec ∧ t' = tr)
    ∧ (b = true → ∃ u r₁ r₂,
        t' = u ++ [.sel, .xfer 1 r₁, .xfer 0 r₂, .unsel]) := by
  unfold initFlash at h
  cases hw : wakeup resp fuel (unselect t) with
  | none => rw [hw] at h; cases h
  | some t1 =>
    rw [hw] at h
    dsimp only at h
    by_cases hj : jedec = 0
    · rw [if_pos hj] at h
      cases hc : command resp fuel SPIFLASH_STATUSWRITE true t1 with
      | none => rw [hc] at h; cases h
      | some t2 =>
        rw [hc] at h
        simp only [Option.some.injEq, Prod.mk.injEq] at h
        obtain ⟨hb, ht⟩ := h
        refine ⟨⟨fun _ => Or.inl hj, fun _ => hb.symm⟩, ?_, ?_⟩
        · intro hbf
          rw [← hb] at hbf
          cases hbf
        · intro _
          obtain ⟨ps₀, r₀, ps₁, r₁, -, -, ht2⟩ := command_true_shape hc
          refine ⟨t1 ++ pollsTrace ps₀ ++ [.sel, .xfer 6 r₀, .unsel]
            ++ pollsTrace ps₁, r₁, (spiTransfer resp 0 t2).1, ?_⟩
          rw [← ht, ht2]
          simp [spiTransfer, unselect, SPIFLASH_STATUSWRITE, List.append_assoc]
    · rw [if_neg hj] at h
      cases hr : readDeviceId resp fuel leo t1 with
      | none => rw [hr] at h; cases h
      | some p =>
        rw [hr] at h
        obtain ⟨id, t2⟩ := p
        dsimp only at h
        by_cases hid : id = jedec
        · rw [if_pos hid] at h
          cases hc : command resp fuel SPIFLASH_STATUSWRITE true t2 with
          | none => rw [hc] at h; cases h
          | some t3 =>
            rw [hc] at h
            simp only [Option.some.injEq, Prod.mk.injEq] at h
            obtain ⟨hb, ht⟩ := h
            refine ⟨⟨fun _ => Or.inr ⟨t1, id, t2, rfl, hr, hid⟩,
              fun _ => hb.symm⟩, ?_, ?_⟩
            · intro hbf
              rw [← hb] at hbf
              cases hbf
            · intro _
              obtain ⟨ps₀, r₀, ps₁, r₁, -, -, ht3⟩ := command_true_shape hc
              refine ⟨t2 ++ pollsTrace ps₀ ++ [.sel, .xfer 6 r₀, .unsel]
                ++ pollsTrace ps₁, r₁, (spiTransfer resp 0 t3).1, ?_⟩
              rw [← ht, ht3]
              simp [spiTransfer, unselect, SPIFLASH_STATUSWRITE,
                List.append_assoc]
        · rw [if_neg hid] at h
          simp only [Option.some.injEq, Prod.mk.injEq] at h
          obtain ⟨hb, ht⟩ := h
          refine ⟨⟨?_, ?_⟩, ?_, ?_⟩
          · intro hbt
            rw [← hb] at hbt
            cases hbt
          · rintro (hj' | ⟨tw, id', tr, hw', hr', hid'⟩)
            · exact absurd hj' hj
            · cases hw'
              rw [hr] at hr'
              cases hr'
              exact absurd hid' hid
          · intro _
            exact ⟨t1, id, t2, rfl, hr, hid, ht.symm⟩
          · intro hbt
            rw [← hb] at hbt
            cases hbt

/-- C6.  Zero-length write is a no-op: `writeBytes(addr, buf, 0)` returns at
once, with no bus activity of any kind — the trace is returned unchanged. -/
theorem writeBytes_zero_length_noop (resp : Resp) (fuel : Nat) (addr : Int)
    (buf : Nat → Nat) (t : Trace) :
    writeBytes resp fuel addr buf 0 t = some t := rfl

/-- C7.  Address encoding: in every address-taking command (readByte,
readBytes, writeByte, writeBytes, blockErase4K, blockErase32K) on a 24-bit
address `a`, the three bytes transmitted immediately after the opcode are
`(a >>> 16) &&& 255`, `(a >>> 8) &&& 255` and `a &&& 255`, in that order
(big-endian).  For writeBytes the opcode shown is that of its first burst,
whose address is `a`. -/
theorem address_encoding_big_endian
    (resp : Resp) (fuel : Nat) (a : Nat) (ha : a < 2 ^ 24)
    (len byt : Nat) (hlen : 0 < len) (buf : Nat → Nat) (t : Trace)
    (v3 : Nat) (u3 : Trace) (o4 : List Nat) (u4 : Trace) (u5 u6 u8 u9 : Trace)
    (h3 : readByte resp fuel (a : Int) t = some (v3, u3))
    (h4 : readBytes resp fuel (a : Int) len t = some (o4, u4))
    (h5 : writeByte resp fuel (a : Int) byt t = some u5)
    (h6 : writeBytes resp fuel (a : Int) buf len t = some u6)
    (h8 : blockErase4K resp fuel (a : Int) t = some u8)
    (h9 : blockErase32K resp fuel (a : Int) t = some u9) :
    (∃ pre post r0 r1 r2 r3, u3 = pre ++ [.xfer 3 r0,
      .xfer ((a >>> 16) &&& 255) r1, .xfer ((a >>> 8) &&& 255) r2,
      .xfer (a &&& 255) r3] ++ post)
    ∧ (∃ pre post r0 r1 r2 r3, u4 = pre ++ [.xfer 11 r0,
      .xfer ((a >>> 16) &&& 255) r1, .xfer ((a >>> 8) &&& 255) r2,
      .xfer (a &&& 255) r3] ++ post)
    ∧ (∃ pre post r0 r1 r2 r3, u5 = pre ++ [.xfer 2 r0,
      .xfer ((a >>> 16) &&& 255) r1, .xfer ((a >>> 8) &&& 255) r2,
      .xfer (a &&& 255) r3] ++ post)
    ∧ (∃ pre post r0 r1 r2 r3, u6 = pre ++ [.xfer 2 r0,
      .xfer ((a >>> 16) &&& 255) r1, .xfer ((a >>> 8) &&& 255) r2,
      .xfer (a &&& 255) r3] ++ post)
    ∧ (∃ pre post r0 r1 r2 r3, u8 = pre ++ [.xfer 32 r0,
      .xfer ((a >>> 16) &&& 255) r1, .xfer ((a >>> 8) &&& 255) r2,
      .xfer (a &&& 255) r3] ++ post)
    ∧ (∃ pre post r0 r1 r2 r3, u9 = pre ++ [.xfer 82 r0,
      .xfer ((a >>> 16) &&& 255) r1, .xfer ((a >>> 8) &&& 255) r2,
      .xfer (a &&& 255) r3] ++ post) := by
  refine ⟨?_, ?_, ?_, ?_, ?_, ?_⟩
  · obtain ⟨ps, r0, r1, r2, r3, -, ht⟩ := readByte_shape h3
    refine ⟨t ++ pollsTrace ps ++ [.sel], [.xfer 0 v3, .unsel], r0, r1, r2, r3, ?_⟩
    rw [ht, toByte_asr_and, toByte_asr_and, toByte_natCast_and]
    simp [List.append_assoc]
  · obtain ⟨-, ps, r0, r1, r2, r3, rd, -, ht⟩ := readBytes_shape h4
    refine ⟨t ++ pollsTrace ps ++ [.sel],
      [.xfer 0 rd] ++ recvTrace o4 ++ [.unsel], r0, r1, r2, r3, ?_⟩
    rw [ht, toByte_asr_and, toByte_asr_and, toByte_natCast_and]
    simp [List.append_assoc]
  · obtain ⟨ps₀, q₀, ps₁, r0, r1, r2, r3, r5, -, -, ht⟩ := writeByte_shape h5
    refine ⟨t ++ pollsTrace ps₀ ++ [.sel, .xfer 6 q₀, .unsel]
      ++ pollsTrace ps₁ ++ [.sel], [.xfer (byt % 256) r5, .unsel],
      r0, r1, r2, r3, ?_⟩
    rw [ht, toByte_asr_and, toByte_asr_and, toByte_natCast_and]
    simp [List.append_assoc]
  · obtain ⟨u, ps₁, r0, r1, r2, r3, w, -, ht⟩ := writeBytes_first_shape h6 hlen
    refine ⟨u ++ pollsTrace ps₁ ++ [.sel], w, r0, r1, r2, r3, ?_⟩
    rw [ht, toByte_asr_and, toByte_asr_and, toByte_natCast_and]
    simp [List.append_assoc]
  · obtain ⟨ps₀, q₀, ps₁, r0, r1, r2, r3, -, -, ht⟩ := blockErase4K_shape h8
    refine ⟨t ++ pollsTrace ps₀ ++ [.sel, .xfer 6 q₀, .unsel]
      ++ pollsTrace ps₁ ++ [.sel], [.unsel], r0, r1, r2, r3, ?_⟩
    rw [ht, toByte_asr_and, toByte_asr_and, toByte_natCast_and]
    simp [List.append_assoc]
  · obtain ⟨ps₀, q₀, ps₁, r0, r1, r2, r3, -, -, ht⟩ := blockErase32K_shape h9
    refine ⟨t ++ pollsTrace ps₀ ++ [.sel, .xfer 6 q₀, .unsel]
      ++ pollsTrace ps₁ ++ [.sel], [.unsel], r0, r1, r2, r3, ?_⟩
    rw [ht, toByte_asr_and, toByte_asr_and, toByte_natCast_and]
    simp [List.append_assoc]

/-- C8.  Wire shape of readBytes: a completing `readBytes(a, buf, len)` call
waits for ready, then transmits the ARRAY-READ opcode 0x0B, the three
big-endian address bytes, exactly one dummy byte, then receives exactly `len`
bytes — returned in order in `out` — and unselects.  `len` is any value of
the 16-bit length parameter. -/
theorem readBytes_wire_shape (resp : Resp) (fuel : Nat) (a : Nat)
    (ha : a < 2 ^ 24) (len : Nat) (hlen : len < 65536) (t : Trace)
    (out : List Nat) (t' : Trace)
    (h : readBytes resp fuel (a : Int) len t = some (out, t')) :
    out.length = len ∧ ∃ ps r0 r1 r2 r3 rd, readyRun ps ∧
      t' = t ++ pollsTrace ps ++ [.sel, .xfer 11 r0,
        .xfer ((a >>> 16) &&& 255) r1, .xfer ((a >>> 8) &&& 255) r2,
        .xfer (a &&& 255) r3, .xfer 0 rd] ++ recvTrace out ++ [.unsel] := by
  obtain ⟨hout, ps, r0, r1, r2, r3, rd, hps, ht⟩ := readBytes_shape h
  refine ⟨hout, ps, r0, r1, r2, r3, rd, hps, ?_⟩
  rw [ht, toByte_asr_and, toByte_asr_and, toByte_natCast_and]

/-- C9.  readDeviceId (direct path) sends the JEDEC-ID opcode 0x9F inside a
single framed transaction, reads two bytes — manufacturer `m` then device
`d` — unselects, and returns the 16-bit word `(m <<< 8) ||| d`, the two bytes
packed big-endian. -/
theorem readDeviceId_packing (resp : Resp) (fuel : Nat) (t : Trace) (id : Nat)
    (t' : Trace) (h : readDeviceId resp fuel false t = some (id, t')) :
    ∃ r0 m d, m < 256 ∧ d < 256 ∧
      t' = t ++ [.sel, .xfer 159 r0, .xfer 0 m, .xfer 0 d, .unsel]
      ∧ id = (m <<< 8) ||| d := by
  obtain ⟨r0, m, d, hm, hd, ht, hid⟩ := readDeviceId_false_shape h
  refine ⟨r0, m, d, hm, hd, ht, ?_⟩
  rw [hid, Nat.mod_eq_of_lt]
  have h1 : m <<< 8 < 2 ^ 16 := by
    rw [Nat.shiftLeft_eq]
    have : (2 : Nat) ^ 8 = 256 := by norm_num
    rw [this]
    omega
  have h2 : d < 2 ^ 16 := by omega
  have h3 := Nat.or_lt_two_pow h1 h2
  omega

/-- C10.  Implicit sign precondition of writeBytes: `maxBytes` is computed as
`256 - (addr % 256)` with the C++ truncated remainder, so for the negative
address -1 the first-burst limit is 257, exceeding 256, and the single burst
writeBytes(-1, buf, 257) performs covers bytes -1..255, which crosses the
page boundary at 0 (a multiple of 256).  The page-split guarantee (C1)
therefore requires a nonnegative address. -/
theorem writeBytes_negative_addr_crosses_page (buf : Nat → Nat) :
    firstLimit (-1) = 257
    ∧ 256 < firstLimit (-1)
    ∧ writeBursts (-1) buf 257 = [((-1 : Int), (List.range 257).map buf)]
    ∧ crossesPage (-1) 257 := by
  have h1 : firstLimit (-1) = 257 := by decide
  refine ⟨h1, by omega, ?_, ?_⟩
  · exact writeBursts_single (-1) buf 257 (by omega) (by omega)
  · refine ⟨0, by norm_num, by norm_num⟩

/-!  Witnesses: each theorem with hypotheses applied at one concrete input. -/

/-- Witness for C1 at address 0 with the zero buffer and length 0. -/
theorem writeBytes_page_split_law_witness :
    partitionFrom 0 0 (writeBursts 0 (fun _ => 0) 0)
    ∧ (∀ b ∈ writeBursts 0 (fun _ => 0) 0, ¬ crossesPage b.1 b.2.length)
    ∧ (∀ b, (writeBursts 0 (fun _ => 0) 0).head? = some b →
        b.2.length ≤ firstLimit 0)
    ∧ (∀ b ∈ writeBursts 0 (fun _ => 0) 0, b.2.length ≤ 256)
    ∧ flatData (writeBursts 0 (fun _ => 0) 0) = (List.range 0).map (fun _ => 0)
    ∧ ∀ (resp : Resp) (fuel : Nat) (t : Trace),
        writeBytes resp fuel 0 (fun _ => 0) 0 t
          = runBursts resp fuel (writeBursts 0 (fun _ => 0) 0) t :=
  writeBytes_page_split_law 0 (fun _ => 0) 0 (by decide)

/-- Witness for C2: a chip-erase opcode issued as a mutating command with an
always-ready chip. -/
theorem command_write_enable_precedes_witness :
    ∃ ps₀ r₀ ps₁ r₁,
      ([.sel, .xfer 5 0, .xfer 0 0, .unsel, .sel, .xfer 6 0, .unsel, .sel,
        .xfer 5 0, .xfer 0 0, .unsel, .sel, .xfer 96 0] : Trace)
        = [] ++ pollsTrace ps₀ ++ [.sel, .xfer 6 r₀, .unsel]
          ++ pollsTrace ps₁ ++ [.sel, .xfer (96 % 256) r₁] :=
  command_write_enable_precedes (fun _ => 0) 1 96 [] _ (by decide)

/-- Witness for the amended C3: a non-mutating ARRAY-READ-LOW-FREQ command
with an always-ready chip. -/
theorem command_opcode_busy_gate_witness :
    ∃ u ps r, readyRun ps
      ∧ ([.sel, .xfer 5 0, .xfer 0 0, .unsel, .sel, .xfer 3 0] : Trace)
          = u ++ pollsTrace ps ++ [.sel, .xfer (3 % 256) r]
      ∧ (false = false → u = [])
      ∧ (false = true → ∃ ps₀ r₀, readyRun ps₀ ∧
          u = [] ++ pollsTrace ps₀ ++ [.sel, .xfer 6 r₀, .unsel]) :=
  command_opcode_busy_gate (fun _ => 0) 1 3 false [] _ (by decide)

/-- Witness for the amended C4, instantiating every operation with an
always-ready chip on the empty trace. -/
theorem balanced_framing_per_op_witness :
    selCount (readStatus (fun _ => 0) []).2
      = unselCount (readStatus (fun _ => 0) []).2 :=
  (balanced_framing_per_op (fun _ => 0) 1 false 0 0 1 0 (fun _ => 0)
    0 [.sel, .xfer 159 0, .xfer 0 0, .xfer 0 0, .unsel]
    [0, 0, 0, 0, 0, 0, 0, 0]
    [.sel, .xfer 5 0, .xfer 0 0, .unsel, .sel, .xfer 75 0, .xfer 0 0,
      .xfer 0 0, .xfer 0 0, .xfer 0 0, .xfer 0 0, .xfer 0 0, .xfer 0 0,
      .xfer 0 0, .xfer 0 0, .xfer 0 0, .xfer 0 0, .xfer 0 0, .unsel]
    0 [.sel, .xfer 5 0, .xfer 0 0, .unsel, .sel, .xfer 3 0, .xfer 0 0,
      .xfer 0 0, .xfer 0 0, .xfer 0 0, .unsel]
    [0] [.sel, .xfer 5 0, .xfer 0 0, .unsel, .sel, .xfer 11 0, .xfer 0 0,
      .xfer 0 0, .xfer 0 0, .xfer 0 0, .xfer 0 0, .unsel]
    [.sel, .xfer 5 0, .xfer 0 0, .unsel, .sel, .xfer 6 0, .unsel, .sel,
      .xfer 5 0, .xfer 0 0, .unsel, .sel, .xfer 2 0, .xfer 0 0, .xfer 0 0,
      .xfer 0 0, .xfer 0 0, .unsel]
    [.sel, .xfer 5 0, .xfer 0 0, .unsel, .sel, .xfer 6 0, .unsel, .sel,
      .xfer 5 0, .xfer 0 0, .unsel, .sel, .xfer 2 0, .xfer 0 0, .xfer 0 0,
      .xfer 0 0, .xfer 0 0, .unsel]
    [.sel, .xfer 5 0, .xfer 0 0, .unsel, .sel, .xfer 6 0, .unsel, .sel,
      .xfer 5 0, .xfer 0 0, .unsel, .sel, .xfer 96 0, .unsel]
    [.sel, .xfer 5 0, .xfer 0 0, .unsel, .sel, .xfer 6 0, .unsel, .sel,
      .xfer 5 0, .xfer 0 0, .unsel, .sel, .xfer 32 0, .xfer 0 0, .xfer 0 0,
      .xfer 0 0, .unsel]
    [.sel, .xfer 5 0, .xfer 0 0, .unsel, .sel, .xfer 6 0, .unsel, .sel,
      .xfer 5 0, .xfer 0 0, .unsel, .sel, .xfer 82 0, .xfer 0 0, .xfer 0 0,
      .xfer 0 0, .unsel]
    [.sel, .xfer 5 0, .xfer 0 0, .unsel, .sel, .xfer 185 0, .unsel]
    [.sel, .xfer 5 0, .xfer 0 0, .unsel, .sel, .xfer 171 0, .unsel]
    true
    [.unsel, .sel, .xfer 5 0, .xfer 0 0, .unsel, .sel, .xfer 171 0, .unsel,
      .sel, .xfer 5 0, .xfer 0 0, .unsel, .sel, .xfer 6 0, .unsel, .sel,
      .xfer 5 0, .xfer 0 0, .unsel, .sel, .xfer 1 0, .xfer 0 0, .unsel]
    (by decide) (by decide) (by decide) (by decide) (by decide) (by decide)
    (by decide) (by decide) (by decide) (by decide) (by decide) (by decide)).1

/-- Witness for C5: a successful zero-identifier run. -/
theorem initFlash_identifier_probe_witness :
    true = true ↔ (0 = 0 ∨ ∃ tw id tr,
      wakeup (fun _ => 0) 1 (unselect []) = some tw
      ∧ readDeviceId (fun _ => 0) 1 false tw = some (id, tr) ∧ id = 0) :=
  (initFlash_identifier_probe (fun _ => 0) 1 0 false [] true
    [.unsel, .sel, .xfer 5 0, .xfer 0 0, .unsel, .sel, .xfer 171 0, .unsel,
      .sel, .xfer 5 0, .xfer 0 0, .unsel, .sel, .xfer 6 0, .unsel, .sel,
      .xfer 5 0, .xfer 0 0, .unsel, .sel, .xfer 1 0, .xfer 0 0, .unsel]
    (by decide)).1

/-- Witness for C7 at address 0x012345 for all six address-taking
operations. -/
theorem address_encoding_big_endian_witness :
    ∃ pre post r0 r1 r2 r3,
      ([.sel, .xfer 5 0, .xfer 0 0, .unsel, .sel, .xfer 3 0, .xfer 1 0,
        .xfer 35 0, .xfer 69 0, .xfer 0 0, .unsel] : Trace)
        = pre ++ [.xfer 3 r0, .xfer ((74565 >>> 16) &&& 255) r1,
            .xfer ((74565 >>> 8) &&& 255) r2, .xfer (74565 &&& 255) r3]
          ++ post :=
  (address_encoding_big_endian (fun _ => 0) 1 74565 (by norm_num) 1 7
    (by norm_num) (fun _ => 0) [] 0
    [.sel, .xfer 5 0, .xfer 0 0, .unsel, .sel, .xfer 3 0, .xfer 1 0,
      .xfer 35 0, .xfer 69 0, .xfer 0 0, .unsel]
    [0]
    [.sel, .xfer 5 0, .xfer 0 0, .unsel, .sel, .xfer 11 0, .xfer 1 0,
      .xfer 35 0, .xfer 69 0, .xfer 0 0, .xfer 0 0, .unsel]
    [.sel, .xfer 5 0, .xfer 0 0, .unsel, .sel, .xfer 6 0, .unsel, .sel,
      .xfer 5 0, .xfer 0 0, .unsel, .sel, .xfer 2 0, .xfer 1 0, .xfer 35 0,
      .xfer 69 0, .xfer 7 0, .unsel]
    [.sel, .xfer 5 0, .xfer 0 0, .unsel, .sel, .xfer 6 0, .unsel, .sel,
      .xfer 5 0, .xfer 0 0, .unsel, .sel, .xfer 2 0, .xfer 1 0, .xfer 35 0,
      .xfer 69 0, .xfer 0 0, .unsel]
    [.sel, .xfer 5 0, .xfer 0 0, .unsel, .sel, .xfer 6 0, .unsel, .sel,
      .xfer 5 0, .xfer 0 0, .unsel, .sel, .xfer 32 0, .xfer 1 0, .xfer 35 0,
      .xfer 69 0, .unsel]
    [.sel, .xfer 5 0, .xfer 0 0, .unsel, .sel, .xfer 6 0, .unsel, .sel,
      .xfer 5 0, .xfer 0 0, .unsel, .sel, .xfer 82 0, .xfer 1 0, .xfer 35 0,
      .xfer 69 0, .unsel]
    (by decide) (by decide) (by decide) (by decide) (by decide) (by decide)).1

/-- Witness for C8: a two-byte read at address 0x012345. -/
theorem readBytes_wire_shape_witness : ([0, 0] : List Nat).length = 2 :=
  (readBytes_wire_shape (fun _ => 0) 1 74565 (by norm_num) 2 (by norm_num)
    [] [0, 0]
    [.sel, .xfer 5 0, .xfer 0 0, .unsel, .sel, .xfer 11 0, .xfer 1 0,
      .xfer 35 0, .xfer 69 0, .xfer 0 0, .xfer 0 0, .xfer 0 0, .unsel]
    (by decide)).1

/-- Witness for C9 with a chip answering 0 to every transfer. -/
theorem readDeviceId_packing_witness :
    ∃ r0 m d, m < 256 ∧ d < 256 ∧
      ([.sel, .xfer 159 0, .xfer 0 0, .xfer 0 0, .unsel] : Trace)
        = [] ++ [.sel, .xfer 159 r0, .xfer 0 m, .xfer 0 d, .unsel]
      ∧ 0 = (m <<< 8) ||| d :=
  readDeviceId_packing (fun _ => 0) 1 [] 0 _ (by decide)

end SPIFlash
